import Mathlib

/-!
Verification development for the golizer audio-reactive visual engine.

The Go sources are shallowly embedded: Go `float64` values become real
numbers, Go `int` values become `Int` (the programs under study keep all
integer quantities far below the 64-bit overflow boundary except where
noted at `nextPow2`), Go slices become lists, and methods that mutate a
receiver become functions returning the updated value.  Code that can
panic (nil function calls, out-of-range indexing) is embedded in the
`Option` monad, with `none` modelling a runtime panic.

Sources embedded here:
  internal/analyzer/analyzer.go and features.go,
  internal/params/params.go,
  internal/render/renderer.go, patterns.go and palette.go.
-/

open scoped Classical

namespace Golizer

/-! ## Go numeric primitives -/

/-- Go conversion from `float64` to an integer type truncates toward zero. -/
noncomputable def intTrunc (r : ℝ) : ℤ := if 0 ≤ r then ⌊r⌋ else ⌈r⌉

/-- Go `math.Mod (x, y) = x - Trunc (x / y) * y` (result carries the sign
of `x`).  We use the Lean convention `x / 0 = 0` for the degenerate divisor,
which never occurs at the call sites embedded here (the divisor is `2 * π`). -/
noncomputable def goMod (x y : ℝ) : ℝ := x - y * (intTrunc (x / y) : ℝ)

/-- Go `math.Pow` on the domains exercised by this repository (nonnegative
base) agrees with the real power function `Real.rpow`. -/
noncomputable def goPow (b e : ℝ) : ℝ := Real.rpow b e

/-- Go `math.Atan2 (y, x)`: the argument of the complex number `x + y*i`,
in `(-π, π]`, with `atan2 (0, 0) = 0`, matching `Complex.arg`. -/
noncomputable def atan2 (y x : ℝ) : ℝ := Complex.arg ⟨x, y⟩

/-- Go `math.Floor` as a real-valued function. -/
noncomputable def goFloor (r : ℝ) : ℝ := (⌊r⌋ : ℝ)

/-- Go `math.Round`: rounds half away from zero. -/
noncomputable def goRound (r : ℝ) : ℝ := if 0 ≤ r then (⌊r + 1/2⌋ : ℝ) else -(⌊-r + 1/2⌋ : ℝ)

/-- The `clamp` helper, identical in analyzer.go and params.go:
`if v < minVal { return minVal }; if v > maxVal { return maxVal }; return v`. -/
noncomputable def clamp (v minVal maxVal : ℝ) : ℝ :=
  if v < minVal then minVal else if v > maxVal then maxVal else v

/-- The `lerp` helper of params.go (also `lerp` in renderer.go and
`lerpFloat` in patterns.go): `current*(1-factor) + target*factor`. -/
noncomputable def lerp (current target factor : ℝ) : ℝ :=
  current * (1 - factor) + target * factor

/-- The integer `clampInt` helper of renderer.go. -/
def clampInt (v lo hi : ℤ) : ℤ := if v < lo then lo else if v > hi then hi else v

/-- Go `strings.ToLower`, character-wise.  On the ASCII mode, pattern and
quality names this repository works with, Unicode case mapping and
character-wise case mapping agree. -/
def goToLower (s : String) : String := String.mk (s.data.map Char.toLower)

namespace analyzer

/-! ## Package internal/analyzer -/

/-- Features describes spectral energy distribution and rhythmic cues
extracted from audio (features.go). -/
structure Features where
  Bass : ℝ
  Mid : ℝ
  Treble : ℝ
  Overall : ℝ
  BeatStrength : ℝ
  IsDrop : Bool

/-- The zero value `Features{}` of the struct. -/
def featuresZero : Features := ⟨0, 0, 0, 0, 0, false⟩

/-- Analyzer state (analyzer.go).  The reusable FFT scratch `buffer` and the
Hann `window` coefficients are part of the mutable state. -/
structure Analyzer where
  sampleRate : ℝ
  bassPeak : ℝ
  midPeak : ℝ
  treblePeak : ℝ
  beatPulse : ℝ
  lastBass : ℝ
  bassHistory : List ℝ
  energyHist : List ℝ
  dropCooldown : ℝ
  historySize : ℤ
  buffer : List ℂ
  window : List ℝ

/-- Analyzer construction (`New` in analyzer.go): nonpositive sample rate
falls back to 44100, nonpositive history size to 60; histories start empty. -/
noncomputable def New (sampleRate : ℝ) (historySize : ℤ) : Analyzer :=
  let sr := if sampleRate ≤ 0 then (44100 : ℝ) else sampleRate
  let hs := if historySize ≤ 0 then (60 : ℤ) else historySize
  { sampleRate := sr, bassPeak := 0, midPeak := 0, treblePeak := 0,
    beatPulse := 0, lastBass := 0, bassHistory := [], energyHist := [],
    dropCooldown := 0, historySize := hs, buffer := [], window := [] }

/-- The Hann window coefficient `0.5 * (1 - cos (2π i / size))`. -/
noncomputable def hann (i size : ℝ) : ℝ := 0.5 * (1 - Real.cos (2 * Real.pi * i / size))

/-- Magnitude of a complex FFT bin: `sqrt (re² + im²)` (`cmag`). -/
noncomputable def cmag (c : ℂ) : ℝ := Real.sqrt (c.re * c.re + c.im * c.im)

/-- Asymmetric attack/release envelope follower (`envelope`). -/
noncomputable def envelope (current input attack release : ℝ) : ℝ :=
  if input > current then current * attack + input * (1 - attack)
  else current * release

/-- Peak-normalising dynamics compression (`dynamics` in analyzer.go). -/
noncomputable def dynamics (value peak : ℝ) : ℝ :=
  if peak < 0.01 then value
  else
    let ra0 := value / peak
    let ra := if ra0 < 0 then 0 else ra0
    let expanded0 := goPow ra 0.7 * peak
    let expanded := if ra > 0.85 then expanded0 * (1 + (ra - 0.85) * 2) else expanded0
    if expanded > 1 then 1 else expanded

/-- Arithmetic mean with `average [] = 0` (`average`). -/
noncomputable def average (values : List ℝ) : ℝ :=
  match values with
  | [] => 0
  | _ :: _ => values.sum / (values.length : ℝ)

/-- The bit-smearing core of `nextPow2`: after `n--`, the Go code ors in the
right shifts by 1, 2, 4, 8 and 16.  (No shift by 32 appears in the source,
so bits above position 32 are not fully propagated.) -/
def smear (m : ℕ) : ℕ :=
  let m1 := m ||| (m >>> 1)
  let m2 := m1 ||| (m1 >>> 2)
  let m3 := m2 ||| (m2 >>> 4)
  let m4 := m3 ||| (m3 >>> 8)
  m4 ||| (m4 >>> 16)

/-- `nextPow2` from analyzer.go.  The Go `int` is 64-bit; every value the
guarded branch manipulates on the inputs considered in this development is
below `2 ^ 63`, where the embedding via `ℕ` coincides with `int64`. -/
def nextPow2 (n : ℤ) : ℤ :=
  if n ≤ 0 then 1 else (smear (n - 1).toNat : ℤ) + 1

/-- Band energy over FFT bins (`bandEnergy`).  The slice `buffer[lo:hi]`
is modelled with `drop`/`take`; whenever `resolution > 0` (every reachable
call: the analyzer is built with a positive sample rate) the Go slice
bounds `0 ≤ lo < hi ≤ len buffer` hold, so the model matches the source. -/
noncomputable def bandEnergy (buffer : List ℂ) (resolution minHz maxHz : ℝ) : ℝ :=
  if minHz ≥ maxHz then 0
  else
    let lo : ℤ := ⌊minHz / resolution⌋
    let hiRaw : ℤ := ⌈maxHz / resolution⌉ + 1
    let halfLen : ℤ := (buffer.length / 2 : ℕ)
    let hi : ℤ := if hiRaw > halfLen then halfLen else hiRaw
    if lo ≥ hi then 0
    else
      let slice := (buffer.drop lo.toNat).take (hi - lo).toNat
      let s := (slice.map cmag).sum
      let normalized := s / ((hi - lo : ℤ) : ℝ)
      if normalized > 1 then 1 else normalized

/-- `pushBass`: append and evict the oldest beyond capacity
`max (24, historySize/2)` (Go integer division truncates toward zero). -/
def pushBass (hist : List ℝ) (historySize : ℤ) (value : ℝ) : List ℝ :=
  let h := hist ++ [value]
  if (h.length : ℤ) > max 24 (historySize.tdiv 2) then h.tail else h

/-- `pushEnergy`: append and evict the oldest beyond capacity `historySize`. -/
def pushEnergy (hist : List ℝ) (historySize : ℤ) (value : ℝ) : List ℝ :=
  let h := hist ++ [value]
  if (h.length : ℤ) > historySize then h.tail else h

/-- `energyVariance` as a function of the (already updated) energy history:
0 below 10 samples, else the square root of the population variance,
capped at 1. -/
noncomputable def energyVariance (hist : List ℝ) : ℝ :=
  if hist.length < 10 then 0
  else
    let mean := average hist
    let sumSq := (hist.map (fun v => (v - mean) * (v - mean))).sum
    let variance := sumSq / (hist.length : ℝ)
    min 1 (Real.sqrt variance)

/-- The analysis window size: `nextPow2 (min (len, 2048))` floored at 256
(lines 56–59 of analyzer.go). -/
def fftSize (n : ℕ) : ℤ :=
  let size := nextPow2 (min (n : ℤ) 2048)
  if size < 256 then 256 else size

/-- The Hann window table built by `ensureWorkspace` for a given size. -/
noncomputable def hannList (size : ℕ) : List ℝ :=
  (List.range size).map (fun i => hann (i : ℝ) (size : ℝ))

/-- The window coefficients used by a call: `ensureWorkspace` rebuilds the
table only when the required size differs from the cached length. -/
noncomputable def windowUsed (a : Analyzer) (size : ℕ) : List ℝ :=
  if a.window.length = size then a.window else hannList size

/-- Filling the FFT scratch buffer: windowed samples, zero-padded
(lines 66–73 of analyzer.go). -/
noncomputable def filledBuffer (samples : List ℝ) (w : List ℝ) (size : ℕ) : List ℂ :=
  (List.range size).map fun i =>
    if i < samples.length then ((samples.getD i 0 * w.getD i 0 : ℝ) : ℂ) else 0

/-- The unnormalised forward discrete Fourier transform.  This is the
mathematical specification of `fft.FFT` from the external dependency
github.com/mjibson/go-dsp, which the analyzer calls. -/
noncomputable def dft (x : List ℂ) : List ℂ :=
  let N := x.length
  (List.range N).map fun k =>
    (List.range N).foldl
      (fun acc j => acc + x.getD j 0 *
        Complex.exp (-2 * Real.pi * Complex.I * (j : ℂ) * (k : ℂ) / (N : ℂ))) 0

/-- The window size of a call of `Analyze` on `samples`. -/
def analyzeSize (samples : List ℝ) : ℕ := (fftSize samples.length).toNat

/-- The FFT result of a call of `Analyze` on `samples` in state `a`. -/
noncomputable def analyzeFft (a : Analyzer) (samples : List ℝ) : List ℂ :=
  dft (filledBuffer samples (windowUsed a (analyzeSize samples)) (analyzeSize samples))

/-- The raw bass band energy (20–250 Hz) computed by `Analyze`. -/
noncomputable def analyzeBass (a : Analyzer) (samples : List ℝ) : ℝ :=
  bandEnergy (analyzeFft a samples) (a.sampleRate / (analyzeSize samples : ℝ)) 20 250

/-- The raw mid band energy (250–2000 Hz) computed by `Analyze`. -/
noncomputable def analyzeMid (a : Analyzer) (samples : List ℝ) : ℝ :=
  bandEnergy (analyzeFft a samples) (a.sampleRate / (analyzeSize samples : ℝ)) 250 2000

/-- The raw treble band energy (2000–8000 Hz) computed by `Analyze`. -/
noncomputable def analyzeTreble (a : Analyzer) (samples : List ℝ) : ℝ :=
  bandEnergy (analyzeFft a samples) (a.sampleRate / (analyzeSize samples : ℝ)) 2000 8000

/-- `Analyze` (lines 51–128 of analyzer.go), returning the features and the
updated analyzer state.  An empty sample list returns zero features and
leaves the state untouched. -/
noncomputable def Analyze (a : Analyzer) (samples : List ℝ) (deltaTime : ℝ) :
    Features × Analyzer :=
  match samples with
  | [] => (featuresZero, a)
  | _ :: _ =>
    let size := analyzeSize samples
    let window := windowUsed a size
    let buffer := filledBuffer samples window size
    let bass := analyzeBass a samples
    let mid := analyzeMid a samples
    let treble := analyzeTreble a samples
    let bassPeak := envelope a.bassPeak bass 0.94 0.75
    let midPeak := envelope a.midPeak mid 0.94 0.78
    let treblePeak := envelope a.treblePeak treble 0.94 0.8
    let bassOut := dynamics bass bassPeak
    let midOut := dynamics mid midPeak
    let trebleOut := dynamics treble treblePeak
    let overall := (bassOut + midOut + trebleOut) / 3
    let energyHist := pushEnergy a.energyHist a.historySize overall
    let eVariance := energyVariance energyHist
    let bassDiff := bass - a.lastBass
    let beat0 := clamp (bassDiff * 14) 0 1
    let beatPulse := (if beat0 > 0.12 then (1 : ℝ) else a.beatPulse) * 0.88
    let beatStrength := min 1 (beat0 + beatPulse * 0.7)
    let bassHistory := pushBass a.bassHistory a.historySize bass
    let dropState : Bool × ℝ :=
      if a.dropCooldown ≤ 0 then
        let avg := average bassHistory
        if avg > 0 ∧ bass > avg * 2 ∧ bassDiff > 0.1 then (true, 1)
        else (false, a.dropCooldown)
      else (false, a.dropCooldown - deltaTime)
    let varianceMultiplier := 1 + eVariance * 0.65
    (⟨min 1 (bassOut * varianceMultiplier),
      min 1 (midOut * varianceMultiplier),
      min 1 (trebleOut * varianceMultiplier),
      min 1 (overall * varianceMultiplier),
      beatStrength, dropState.1⟩,
     { a with bassPeak := bassPeak, midPeak := midPeak, treblePeak := treblePeak,
              beatPulse := beatPulse, lastBass := bass,
              bassHistory := bassHistory, energyHist := energyHist,
              dropCooldown := dropState.2, buffer := buffer, window := window })

/-- Folding a sequence of `Analyze` calls over the analyzer state. -/
noncomputable def runAnalyzer (a : Analyzer) : List (List ℝ × ℝ) → Analyzer
  | [] => a
  | x :: xs => runAnalyzer (Analyze a x.1 x.2).2 xs

/-! ## Analyzer lemmas -/

/-- Membership of a real in the closed unit interval. -/
def inUnit (x : ℝ) : Prop := 0 ≤ x ∧ x ≤ 1

lemma cmag_nonneg (c : ℂ) : 0 ≤ cmag c := Real.sqrt_nonneg _

lemma min_one_mem {x : ℝ} (hx : 0 ≤ x) : inUnit (min 1 x) :=
  ⟨le_min zero_le_one hx, min_le_left 1 x⟩

lemma clamp_mem {lo hi : ℝ} (v : ℝ) (h : lo ≤ hi) : lo ≤ clamp v lo hi ∧ clamp v lo hi ≤ hi := by
  unfold clamp
  split_ifs <;> constructor <;> linarith

lemma bandEnergy_mem (buffer : List ℂ) (resolution minHz maxHz : ℝ) :
    inUnit (bandEnergy buffer resolution minHz maxHz) := by
  unfold inUnit
  simp only [bandEnergy]
  split_ifs
  all_goals try exact ⟨le_refl 0, zero_le_one⟩
  all_goals try exact ⟨zero_le_one, le_refl 1⟩
  all_goals
    rename_i hgt
    refine ⟨div_nonneg (List.sum_nonneg fun x hx => ?_) ?_, not_lt.mp hgt⟩
  any_goals (rcases List.mem_map.mp hx with ⟨c, _, rfl⟩; exact cmag_nonneg c)
  all_goals norm_cast
  all_goals omega

lemma dynamics_mem {value : ℝ} (peak : ℝ) (h0 : 0 ≤ value) (h1 : value ≤ 1) :
    inUnit (dynamics value peak) := by
  unfold inUnit
  simp only [dynamics]
  by_cases hp : peak < 0.01
  · rw [if_pos hp]; exact ⟨h0, h1⟩
  · rw [if_neg hp]
    push_neg at hp
    have hpk : (0:ℝ) < peak := by linarith
    have hra0 : 0 ≤ value / peak := div_nonneg h0 (le_of_lt hpk)
    rw [if_neg (not_lt.mpr hra0)]
    have hexp0 : 0 ≤ goPow (value / peak) 0.7 * peak :=
      mul_nonneg (Real.rpow_nonneg hra0 _) (le_of_lt hpk)
    by_cases hb : value / peak > 0.85
    · rw [if_pos hb]
      have hboost : (0:ℝ) ≤ 1 + (value / peak - 0.85) * 2 := by nlinarith
      have hexp : 0 ≤ goPow (value / peak) 0.7 * peak * (1 + (value / peak - 0.85) * 2) :=
        mul_nonneg hexp0 hboost
      by_cases hg : goPow (value / peak) 0.7 * peak * (1 + (value / peak - 0.85) * 2) > 1
      · rw [if_pos hg]; exact ⟨zero_le_one, le_refl 1⟩
      · rw [if_neg hg]; exact ⟨hexp, not_lt.mp hg⟩
    · rw [if_neg hb]
      by_cases hg : goPow (value / peak) 0.7 * peak > 1
      · rw [if_pos hg]; exact ⟨zero_le_one, le_refl 1⟩
      · rw [if_neg hg]; exact ⟨hexp0, not_lt.mp hg⟩

lemma energyVariance_mem (hist : List ℝ) : inUnit (energyVariance hist) := by
  unfold inUnit
  simp only [energyVariance]
  split_ifs
  · exact ⟨le_refl 0, zero_le_one⟩
  · exact ⟨le_min zero_le_one (Real.sqrt_nonneg _), min_le_left 1 _⟩

lemma analyzeBass_mem (a : Analyzer) (samples : List ℝ) : inUnit (analyzeBass a samples) :=
  bandEnergy_mem _ _ _ _

lemma analyzeMid_mem (a : Analyzer) (samples : List ℝ) : inUnit (analyzeMid a samples) :=
  bandEnergy_mem _ _ _ _

lemma analyzeTreble_mem (a : Analyzer) (samples : List ℝ) : inUnit (analyzeTreble a samples) :=
  bandEnergy_mem _ _ _ _

end analyzer

open analyzer

/-- C2 (corrected).  For every analyzer state whose `beatPulse` accumulator is
nonnegative — an invariant established by `New` (which zeroes it) and
preserved by every `Analyze` call, as the last conjunct shows — and for every
sample list and `deltaTime`, all numeric fields of the returned `Features`
lie in `[0, 1]`, and `IsDrop` is a boolean.  The restriction to nonnegative
`beatPulse` is forced by `C2_counterexample`: from an adversarial state with
a negative pulse the returned `BeatStrength` is negative. -/
theorem C2_features_in_unit_range (a : Analyzer) (samples : List ℝ) (deltaTime : ℝ)
    (hpulse : 0 ≤ a.beatPulse) :
    inUnit (Analyze a samples deltaTime).1.Bass
    ∧ inUnit (Analyze a samples deltaTime).1.Mid
    ∧ inUnit (Analyze a samples deltaTime).1.Treble
    ∧ inUnit (Analyze a samples deltaTime).1.Overall
    ∧ inUnit (Analyze a samples deltaTime).1.BeatStrength
    ∧ ((Analyze a samples deltaTime).1.IsDrop = true
        ∨ (Analyze a samples deltaTime).1.IsDrop = false)
    ∧ 0 ≤ (Analyze a samples deltaTime).2.beatPulse := by
  cases samples with
  | nil =>
    refine ⟨?_, ?_, ?_, ?_, ?_, ?_, ?_⟩ <;>
      simp [Analyze, featuresZero, inUnit, hpulse]
  | cons x xs =>
    have hB := analyzeBass_mem a (x :: xs)
    have hM := analyzeMid_mem a (x :: xs)
    have hT := analyzeTreble_mem a (x :: xs)
    have hDB := dynamics_mem (envelope a.bassPeak (analyzeBass a (x :: xs)) 0.94 0.75) hB.1 hB.2
    have hDM := dynamics_mem (envelope a.midPeak (analyzeMid a (x :: xs)) 0.94 0.78) hM.1 hM.2
    have hDT := dynamics_mem (envelope a.treblePeak (analyzeTreble a (x :: xs)) 0.94 0.8) hT.1 hT.2
    have hV := energyVariance_mem (pushEnergy a.energyHist a.historySize
      ((dynamics (analyzeBass a (x :: xs)) (envelope a.bassPeak (analyzeBass a (x :: xs)) 0.94 0.75)
        + dynamics (analyzeMid a (x :: xs)) (envelope a.midPeak (analyzeMid a (x :: xs)) 0.94 0.78)
        + dynamics (analyzeTreble a (x :: xs)) (envelope a.treblePeak (analyzeTreble a (x :: xs)) 0.94 0.8)) / 3))
    have hmul : (0:ℝ) ≤ 1 + (energyVariance (pushEnergy a.energyHist a.historySize
      ((dynamics (analyzeBass a (x :: xs)) (envelope a.bassPeak (analyzeBass a (x :: xs)) 0.94 0.75)
        + dynamics (analyzeMid a (x :: xs)) (envelope a.midPeak (analyzeMid a (x :: xs)) 0.94 0.78)
        + dynamics (analyzeTreble a (x :: xs)) (envelope a.treblePeak (analyzeTreble a (x :: xs)) 0.94 0.8)) / 3))) * 0.65 := by
      nlinarith [hV.1, hV.2]
    have hbeat0 := clamp_mem (((analyzeBass a (x :: xs)) - a.lastBass) * 14) (zero_le_one)
    have hpul : (0:ℝ) ≤ (if clamp (((analyzeBass a (x :: xs)) - a.lastBass) * 14) 0 1 > 0.12
        then (1:ℝ) else a.beatPulse) * 0.88 := by
      split
      · norm_num
      · linarith
    simp only [Analyze]
    refine ⟨?_, ?_, ?_, ?_, ?_, ?_, ?_⟩
    · exact min_one_mem (mul_nonneg hDB.1 hmul)
    · exact min_one_mem (mul_nonneg hDM.1 hmul)
    · exact min_one_mem (mul_nonneg hDT.1 hmul)
    · refine min_one_mem (mul_nonneg (by linarith [hDB.1, hDM.1, hDT.1]) hmul)
    · exact min_one_mem (by nlinarith [hbeat0.1, hpul])
    · exact Bool.eq_false_or_eq_true _
    · exact hpul

/-- C2 counterexample: the claim quantifies over every analyzer state, but
from the concrete state below — `beatPulse = -10`, `lastBass = 100` — the
`Analyze` call on one zero sample returns a negative `BeatStrength`, outside
the claimed interval `[0, 1]`. -/
noncomputable def aCounter : Analyzer :=
  ⟨44100, 0, 0, 0, -10, 100, [], [], 0, 60, [], []⟩

/-- C2 witness state: the same state with a nonnegative pulse. -/
noncomputable def aWitness : Analyzer :=
  ⟨44100, 0, 0, 0, 0, 0, [], [], 0, 60, [], []⟩

/-- C2 counterexample theorem: `Analyze aCounter [0] 0` returns
`BeatStrength < 0`, refuting the claim as stated. -/
theorem C2_counterexample : (Analyze aCounter [0] 0).1.BeatStrength < 0 := by
  have hB := analyzeBass_mem aCounter [0]
  have hlast : aCounter.lastBass = 100 := rfl
  have hpulse : aCounter.beatPulse = -10 := rfl
  simp only [Analyze]
  have hc : clamp ((analyzeBass aCounter [0] - aCounter.lastBass) * 14) 0 1 = 0 := by
    unfold clamp
    rw [if_pos]
    rw [hlast]
    nlinarith [hB.2]
  rw [hc, hpulse]
  rw [if_neg (by norm_num)]
  have : min (1:ℝ) (0 + -10 * 0.88 * 0.7) = 0 + -10 * 0.88 * 0.7 :=
    min_eq_right (by norm_num)
  rw [this]
  norm_num

/-- C2 witness: the amended theorem applied at the concrete state
`aWitness`, one zero sample and zero elapsed time. -/
theorem C2_witness :
    0 ≤ aWitness.beatPulse ∧
    (inUnit (Analyze aWitness [0] 0).1.Bass
    ∧ inUnit (Analyze aWitness [0] 0).1.Mid
    ∧ inUnit (Analyze aWitness [0] 0).1.Treble
    ∧ inUnit (Analyze aWitness [0] 0).1.Overall
    ∧ inUnit (Analyze aWitness [0] 0).1.BeatStrength
    ∧ ((Analyze aWitness [0] 0).1.IsDrop = true ∨ (Analyze aWitness [0] 0).1.IsDrop = false)
    ∧ 0 ≤ (Analyze aWitness [0] 0).2.beatPulse) :=
  ⟨le_refl 0, C2_features_in_unit_range aWitness [0] 0 (le_refl 0)⟩

lemma analyze_isDrop_imp (a : Analyzer) (s : List ℝ) (δ : ℝ)
    (h : (Analyze a s δ).1.IsDrop = true) :
    a.dropCooldown ≤ 0 ∧ (Analyze a s δ).2.dropCooldown = 1 := by
  cases s with
  | nil => simp [Analyze, featuresZero] at h
  | cons x xs =>
    simp only [Analyze] at h ⊢
    split_ifs at h ⊢ with h1 h2
    simp_all

lemma analyze_step_cooldown (b : Analyzer) (t : List ℝ) (d : ℝ) (ht : t ≠ []) :
    (0 < b.dropCooldown →
      (Analyze b t d).1.IsDrop = false
      ∧ (Analyze b t d).2.dropCooldown = b.dropCooldown - d)
    ∧ (b.dropCooldown ≤ 0 →
      ((Analyze b t d).1.IsDrop = true ∧ (Analyze b t d).2.dropCooldown = 1)
      ∨ ((Analyze b t d).1.IsDrop = false ∧ (Analyze b t d).2.dropCooldown = b.dropCooldown)) := by
  cases t with
  | nil => exact absurd rfl ht
  | cons x xs =>
    simp only [Analyze]
    constructor
    · intro h
      rw [if_neg (by linarith)]
      exact ⟨rfl, rfl⟩
    · intro h
      rw [if_pos h]
      split_ifs with h2
      · exact Or.inl ⟨rfl, rfl⟩
      · exact Or.inr ⟨rfl, rfl⟩

lemma analyze_cooldown_lb (a : Analyzer) (s : List ℝ) (δ : ℝ) (hδ : 0 ≤ δ) :
    a.dropCooldown - δ ≤ (Analyze a s δ).2.dropCooldown := by
  cases s with
  | nil => simp only [Analyze]; linarith
  | cons x xs =>
    by_cases h1 : 0 < a.dropCooldown
    · have h := ((analyze_step_cooldown a (x :: xs) δ (by simp)).1 h1).2
      rw [h]
    · push_neg at h1
      rcases (analyze_step_cooldown a (x :: xs) δ (by simp)).2 h1 with ⟨_, h2⟩ | ⟨_, h2⟩ <;>
        rw [h2] <;> linarith

lemma runAnalyzer_cooldown (xs : List (List ℝ × ℝ)) :
    ∀ a : Analyzer, (∀ x ∈ xs, 0 ≤ x.2) →
      a.dropCooldown - (xs.map Prod.snd).sum ≤ (runAnalyzer a xs).dropCooldown := by
  induction xs with
  | nil => intro a _; simp [runAnalyzer]
  | cons y ys ih =>
    intro a h
    have hy : 0 ≤ y.2 := h y (List.mem_cons_self y ys)
    have h1 := analyze_cooldown_lb a y.1 y.2 hy
    have h2 := ih (Analyze a y.1 y.2).2 (fun x hx => h x (List.mem_cons_of_mem y hx))
    simp only [runAnalyzer, List.map_cons, List.sum_cons]
    linarith

/-- C3 (confirmed).  First conjunct: starting from a state just after a drop
(`dropCooldown = 1`, which every drop-flagging call establishes, see the
second conjunct), if after a further sequence `pre` of calls with
nonnegative `deltaTime` values the next call flags `IsDrop = true`, then the
`deltaTime` values accumulated over the calls after the drop total at least
1.0 seconds.  Second conjunct: in any single call on a nonempty sample list,
while the cooldown is positive no drop is flagged and the cooldown decreases
by exactly the elapsed `deltaTime`; when it is not positive, it is either
reset to 1.0 (exactly on a drop event) or left unchanged. -/
theorem C3_drop_cooldown (a : Analyzer) (pre : List (List ℝ × ℝ)) (s : List ℝ) (d : ℝ)
    (ha : a.dropCooldown = 1) (hpre : ∀ x ∈ pre, 0 ≤ x.2) :
    ((Analyze (runAnalyzer a pre) s d).1.IsDrop = true → 1 ≤ (pre.map Prod.snd).sum)
    ∧ ∀ (b : Analyzer) (t : List ℝ) (d' : ℝ), t ≠ [] →
        ((0 < b.dropCooldown →
          (Analyze b t d').1.IsDrop = false
          ∧ (Analyze b t d').2.dropCooldown = b.dropCooldown - d')
        ∧ (b.dropCooldown ≤ 0 →
          ((Analyze b t d').1.IsDrop = true ∧ (Analyze b t d').2.dropCooldown = 1)
          ∨ ((Analyze b t d').1.IsDrop = false ∧ (Analyze b t d').2.dropCooldown = b.dropCooldown))) := by
  constructor
  · intro hdrop
    have h1 := (analyze_isDrop_imp _ _ _ hdrop).1
    have h2 := runAnalyzer_cooldown pre a hpre
    rw [ha] at h2
    linarith
  · intro b t d' ht
    exact analyze_step_cooldown b t d' ht

/-- C3 witness analyzer state, as left behind by a drop event. -/
noncomputable def aPostDrop : Analyzer :=
  ⟨44100, 0, 0, 0, 0, 0, [], [], 1, 60, [], []⟩

/-- C3 witness input list: one subsequent call with `deltaTime = 0.5`. -/
noncomputable def c3Pre : List (List ℝ × ℝ) := [([0], 0.5)]

/-- C3 witness: the theorem applied to the post-drop state, one subsequent
call with `deltaTime = 0.5`, and a current call with `deltaTime = 0.25`. -/
theorem C3_witness :
    aPostDrop.dropCooldown = 1 ∧
    (((Analyze (runAnalyzer aPostDrop c3Pre) [0] 0.25).1.IsDrop = true →
        1 ≤ (c3Pre.map Prod.snd).sum)
    ∧ ∀ (b : Analyzer) (t : List ℝ) (d' : ℝ), t ≠ [] →
        ((0 < b.dropCooldown →
          (Analyze b t d').1.IsDrop = false
          ∧ (Analyze b t d').2.dropCooldown = b.dropCooldown - d')
        ∧ (b.dropCooldown ≤ 0 →
          ((Analyze b t d').1.IsDrop = true ∧ (Analyze b t d').2.dropCooldown = 1)
          ∨ ((Analyze b t d').1.IsDrop = false ∧ (Analyze b t d').2.dropCooldown = b.dropCooldown)))) :=
  ⟨rfl,
   C3_drop_cooldown aPostDrop c3Pre [0] 0.25 rfl
     (by
      intro x hx
      simp only [c3Pre, List.mem_singleton] at hx
      subst hx
      norm_num)⟩

/-- C4 (confirmed).  `Analyze` on an empty sample list returns the
zero-valued `Features` and the completely unchanged analyzer state — every
field, including peak envelopes, `lastBass`, `beatPulse`, both history
rings, `dropCooldown` and the FFT buffer and window, is untouched. -/
theorem C4_empty_samples_identity (a : Analyzer) (deltaTime : ℝ) :
    Analyze a [] deltaTime = (featuresZero, a) := rfl

lemma ite_gt_one_eq_min (x : ℝ) : (if x > 1 then (1:ℝ) else x) = min 1 x := by
  rcases le_total x 1 with h | h
  · rw [if_neg (not_lt.mpr h), min_eq_right h]
  · rcases eq_or_lt_of_le h with he | hlt
    · simp [← he]
    · rw [if_pos hlt, min_eq_left h]

/-- C8 (confirmed).  The `dynamics` compressor behaves exactly as the spec
describes: below the 0.01 peak threshold the value passes through unchanged;
otherwise the result is `ratio^0.7 · peak` for `ratio = max (0, value/peak)`,
multiplied by `1 + (ratio − 0.85) · 2` when `ratio > 0.85`, clamped to at
most 1.  In particular `dynamics 0.5 0 = 0.5`. -/
theorem C8_dynamics_spec (value peak : ℝ) :
    (peak < 0.01 → dynamics value peak = value)
    ∧ (0.01 ≤ peak →
        dynamics value peak =
          min 1 (goPow (max 0 (value / peak)) 0.7 * peak *
            (if 0.85 < max 0 (value / peak) then 1 + (max 0 (value / peak) - 0.85) * 2 else 1)))
    ∧ dynamics 0.5 0 = 0.5 := by
  refine ⟨fun h => ?_, fun h => ?_, ?_⟩
  · simp only [dynamics]
    rw [if_pos h]
  · simp only [dynamics]
    rw [if_neg (not_lt.mpr h)]
    have hmax : (if value / peak < 0 then (0:ℝ) else value / peak) = max 0 (value / peak) := by
      rcases lt_or_le (value / peak) 0 with hc | hc
      · rw [if_pos hc, max_eq_left (le_of_lt hc)]
      · rw [if_neg (not_lt.mpr hc), max_eq_right hc]
    rw [hmax]
    by_cases hb : max 0 (value / peak) > 0.85
    · rw [if_pos hb, if_pos hb, ite_gt_one_eq_min]
    · rw [if_neg hb, if_neg hb, ite_gt_one_eq_min, mul_one]
  · simp only [dynamics]
    rw [if_pos (by norm_num)]

/-- C8 witness: the theorem applied at `value = 0.5`, `peak = 0`, where the
low-peak hypothesis holds and the compressor passes the value through. -/
theorem C8_witness : (0:ℝ) < 0.01 ∧ dynamics 0.5 0 = 0.5 :=
  ⟨by norm_num, (C8_dynamics_spec 0.5 0).1 (by norm_num)⟩

/-! ## nextPow2: bit-smearing correctness -/

/-- Bits `i` with `L ≤ i + k < L + k` (the top `k` bits below `L`) are set. -/
def topSet (x L k : ℕ) : Prop := ∀ i, i < L → L ≤ i + k → x.testBit i = true

lemma orShift_lt (s : ℕ) {x L : ℕ} (hx : x < 2 ^ L) : (x ||| (x >>> s)) < 2 ^ L :=
  Nat.or_lt_two_pow hx
    (lt_of_le_of_lt (by rw [Nat.shiftRight_eq_div_pow]; exact Nat.div_le_self _ _) hx)

lemma orShift_topSet (s : ℕ) {x L k : ℕ} (hsk : s ≤ k)
    (h : topSet x L k) : topSet (x ||| (x >>> s)) L (k + s) := by
  intro i hiL hLik
  rw [Nat.testBit_lor]
  by_cases hk : L ≤ i + k
  · rw [h i hiL hk]
    rfl
  · have his : s + i < L := by omega
    have hks : L ≤ (s + i) + k := by omega
    rw [Nat.testBit_shiftRight, h (s + i) his hks]
    simp

lemma testBit_size_pred {m : ℕ} (h : 1 ≤ m) : m.testBit (m.size - 1) = true := by
  have hsz : 0 < m.size := Nat.size_pos.mpr h
  have h1 : 2 ^ (m.size - 1) ≤ m := Nat.lt_size.mp (by omega)
  have h2 : m < 2 ^ m.size := Nat.lt_size_self m
  have h2' : m < (1 + 1) * 2 ^ (m.size - 1) := by
    have : (1 + 1) * 2 ^ (m.size - 1) = 2 ^ (m.size - 1 + 1) := by ring
    rw [this]
    have : m.size - 1 + 1 = m.size := by omega
    rw [this]
    exact h2
  have hdiv : m / 2 ^ (m.size - 1) = 1 :=
    Nat.div_eq_of_lt_le (by simpa using h1) h2'
  rw [Nat.testBit_to_div_mod, hdiv]
  rfl

lemma smear_eq_of_lt {m : ℕ} (h1 : 1 ≤ m) (h32 : m < 2 ^ 32) :
    smear m = 2 ^ m.size - 1 := by
  have hmL : m < 2 ^ m.size := Nat.lt_size_self m
  have hL32 : m.size ≤ 32 := Nat.size_le.mpr h32
  have t1 : topSet m m.size 1 := by
    intro i hiL hLe
    have : i = m.size - 1 := by omega
    rw [this]
    exact testBit_size_pred h1
  have t2 := orShift_topSet 1 (le_refl 1) t1
  have l2 := orShift_lt 1 hmL
  have t3 := orShift_topSet 2 (le_refl 2) t2
  have l3 := orShift_lt 2 l2
  have t4 := orShift_topSet 4 (le_refl 4) t3
  have l4 := orShift_lt 4 l3
  have t5 := orShift_topSet 8 (le_refl 8) t4
  have l5 := orShift_lt 8 l4
  have t6 := orShift_topSet 16 (le_refl 16) t5
  have l6 := orShift_lt 16 l5
  show (fun x => x ||| (x >>> 16)) ((fun x => x ||| (x >>> 8)) ((fun x => x ||| (x >>> 4))
    ((fun x => x ||| (x >>> 2)) (m ||| (m >>> 1))))) = 2 ^ m.size - 1
  simp only []
  apply Nat.eq_of_testBit_eq
  intro i
  by_cases hi : i < m.size
  · rw [t6 i hi (by omega), Nat.testBit_two_pow_sub_one]
    simp [hi]
  · rw [Nat.testBit_lt_two_pow
      (lt_of_lt_of_le l6 (Nat.pow_le_pow_right (by norm_num) (by omega))),
      Nat.testBit_two_pow_sub_one]
    simp [hi]

lemma nextPow2_eq_pow {n : ℤ} (h1 : 1 ≤ n) (h32 : n ≤ 2 ^ 32) :
    nextPow2 n = 2 ^ ((n - 1).toNat.size) := by
  unfold nextPow2
  rw [if_neg (by omega)]
  rcases eq_or_lt_of_le h1 with he | hgt
  · rw [← he]
    norm_num [smear, Nat.size_zero]
  · have h32' : n ≤ 4294967296 := by norm_num at h32 ⊢; exact h32
    have hm1 : 1 ≤ (n - 1).toNat := by omega
    have hm32 : (n - 1).toNat < 2 ^ 32 := by norm_num; omega
    rw [smear_eq_of_lt hm1 hm32]
    have hle : 1 ≤ 2 ^ (n - 1).toNat.size := Nat.one_le_two_pow
    push_cast [Nat.cast_sub hle]
    ring

lemma fftSize_eq (n : ℕ) : fftSize n = max 256 (nextPow2 (min (n : ℤ) 2048)) := by
  unfold fftSize
  rcases le_or_lt 256 (nextPow2 (min (n : ℤ) 2048)) with h | h
  · rw [if_neg (not_lt.mpr h), max_eq_right h]
  · rw [if_pos h, max_eq_left (le_of_lt h)]

lemma nextPow2_pos (n : ℤ) : 1 ≤ nextPow2 n := by
  unfold nextPow2
  split_ifs <;> omega

lemma fftSize_ge (n : ℕ) : 256 ≤ fftSize n := by
  simp only [fftSize]
  split_ifs with h <;> omega

/-- C9 (corrected).  First conjunct: on every nonempty sample list the FFT
workspace built by `Analyze` has exactly `max (256, nextPow2 (min (len,
2048)))` entries.  Second conjunct: for `1 ≤ n ≤ 2^32`, `nextPow2 n` is the
least power of two that is at least `n` — the bound `2^32` is forced by
`C9_counterexample`: the Go code stops its bit-smearing cascade at a shift
of 16, so inputs above `2^32 + 1` can produce non-powers of two.  Third
conjunct: `nextPow2 n = 1` for `n ≤ 0`.  Fourth conjunct: the boundary
table claimed by the spec. -/
theorem C9_next_pow2_window :
    (∀ (a : Analyzer) (x : ℝ) (xs : List ℝ) (δ : ℝ),
        ((Analyze a (x :: xs) δ).2.buffer.length : ℤ)
          = max 256 (nextPow2 (min ((x :: xs).length : ℤ) 2048)))
    ∧ (∀ n : ℤ, 1 ≤ n → n ≤ 2 ^ 32 →
        (∃ k : ℕ, nextPow2 n = 2 ^ k) ∧ n ≤ nextPow2 n
          ∧ ∀ k : ℕ, n ≤ 2 ^ k → nextPow2 n ≤ 2 ^ k)
    ∧ (∀ n : ℤ, n ≤ 0 → nextPow2 n = 1)
    ∧ (nextPow2 0 = 1 ∧ nextPow2 1 = 1 ∧ nextPow2 2 = 2 ∧ nextPow2 3 = 4
        ∧ nextPow2 5 = 8 ∧ nextPow2 16 = 16 ∧ nextPow2 31 = 32 ∧ nextPow2 257 = 512) := by
  refine ⟨?_, ?_, ?_, ?_⟩
  · intro a x xs δ
    have hlen : (Analyze a (x :: xs) δ).2.buffer.length = analyzeSize (x :: xs) := by
      simp only [Analyze]
      simp [filledBuffer]
    rw [hlen]
    unfold analyzeSize
    rw [Int.toNat_of_nonneg (by linarith [fftSize_ge (x :: xs).length])]
    exact fftSize_eq _
  · intro n h1 h32
    rw [nextPow2_eq_pow h1 h32]
    have hm : ((n - 1).toNat : ℤ) = n - 1 := Int.toNat_of_nonneg (by omega)
    refine ⟨⟨(n - 1).toNat.size, by ring⟩, ?_, ?_⟩
    · have := Nat.lt_size_self (n - 1).toNat
      have : ((n - 1).toNat : ℤ) < 2 ^ (n - 1).toNat.size := by exact_mod_cast this
      omega
    · intro k hk
      have hmk : (n - 1).toNat < 2 ^ k := by
        have hlt : ((n - 1).toNat : ℤ) < (2 : ℤ) ^ k := by rw [hm]; linarith
        exact_mod_cast hlt
      have := Nat.size_le.mpr hmk
      have h2 : (2 : ℤ) ^ (n - 1).toNat.size ≤ 2 ^ k := by
        exact_mod_cast Nat.pow_le_pow_right (by norm_num) this
      omega
  · intro n h
    unfold nextPow2
    rw [if_pos h]
  · refine ⟨by decide, by decide, by decide, by decide, by decide, by decide, by decide, by decide⟩

/-- C9 counterexample: the claim states `nextPow2` returns the least power
of two at least `n` for every `n ≥ 1`, but at `n = 2^32 + 1` the Go code
(whose smearing cascade stops at a shift of 16) returns
`8589934591 = 2^33 - 1`, which is not a power of two. -/
theorem C9_counterexample :
    nextPow2 (2 ^ 32 + 1) = 8589934591 ∧ ∀ k : ℕ, (2 : ℤ) ^ k ≠ 8589934591 := by
  constructor
  · decide
  · intro k h
    rcases Nat.eq_zero_or_pos k with hk | hk
    · rw [hk] at h
      norm_num at h
    · have hdvd : (2 : ℤ) ∣ 8589934591 := h ▸ dvd_pow_self 2 (show k ≠ 0 by omega)
      norm_num at hdvd

/-- C9 witness: the amended characterisation applied at `n = 5`, giving the
least power of two at least 5, namely 8. -/
theorem C9_witness :
    (1 : ℤ) ≤ 5 ∧
    ((∃ k : ℕ, nextPow2 5 = 2 ^ k) ∧ (5 : ℤ) ≤ nextPow2 5
      ∧ ∀ k : ℕ, (5 : ℤ) ≤ 2 ^ k → nextPow2 5 ≤ 2 ^ k) :=
  ⟨by norm_num, C9_next_pow2_window.2.1 5 (by norm_num) (by norm_num)⟩

namespace params

/-! ## Package internal/params -/

open analyzer

/-- Parameters models shader-friendly configuration (params.go).  The
`TerminalBG` RGB triple is carried as three naturals. -/
structure Parameters where
  Time : ℝ
  Frequency : ℝ
  Amplitude : ℝ
  Speed : ℝ
  Scale : ℝ
  ColorShift : ℝ
  Pattern : String
  ColorMode : String
  Brightness : ℝ
  Contrast : ℝ
  Saturation : ℝ
  Gamma : ℝ
  Vignette : ℝ
  VignetteSoftness : ℝ
  GlyphSharpness : ℝ
  BeatSensitivity : ℝ
  BassInfluence : ℝ
  MidInfluence : ℝ
  TrebleInfluence : ℝ
  BeatDistortion : ℝ
  BeatZoom : ℝ
  DistortAmplitude : ℝ
  NoiseStrength : ℝ
  NoiseScale : ℝ
  EffectCooldown : ℝ
  LastEffectTime : ℝ
  TerminalBG : ℕ × ℕ × ℕ

/-- `Defaults` from params.go (calm defaults; unlisted fields are the Go
zero values). -/
noncomputable def Defaults : Parameters :=
  { Time := 0, Frequency := 6.0, Amplitude := 0.0, Speed := 0.05, Scale := 1.0,
    ColorShift := 0.0, Pattern := "pulse", ColorMode := "chromatic",
    Brightness := 0.0, Contrast := 0.8, Saturation := 0.9, Gamma := 1.0,
    Vignette := 0.25, VignetteSoftness := 0.55, GlyphSharpness := 1.0,
    BeatSensitivity := 1.2, BassInfluence := 0.9, MidInfluence := 0.15,
    TrebleInfluence := 0.08, BeatDistortion := 0.0, BeatZoom := 0.0,
    DistortAmplitude := 0.0, NoiseStrength := 0.0, NoiseScale := 0.006,
    EffectCooldown := 0, LastEffectTime := -100, TerminalBG := (0, 0, 0) }

/-- `UpdateTime`: advances the animation clock by `delta * Speed`. -/
noncomputable def UpdateTime (p : Parameters) (delta : ℝ) : Parameters :=
  { p with Time := p.Time + delta * p.Speed }

/-- `maxFloat` helper of params.go. -/
noncomputable def maxFloat (a b : ℝ) : ℝ := if a > b then a else b

/-- `applySilenceDecay` (params.go lines 145–164): exponential relaxation of
every dynamic field toward its resting value, frame-rate independent via
`base ^ (delta * 60)`. -/
noncomputable def applySilenceDecay (p : Parameters) (delta : ℝ) : Parameters :=
  let fastDecay := goPow 0.75 (delta * 60)
  let superFastDecay := goPow 0.5 (delta * 60)
  { p with
    Amplitude := p.Amplitude * fastDecay,
    NoiseStrength := p.NoiseStrength * superFastDecay,
    Frequency := p.Frequency * fastDecay + 6.0 * (1 - fastDecay),
    Speed := p.Speed * fastDecay,
    Brightness := p.Brightness * superFastDecay,
    Contrast := p.Contrast * fastDecay + 0.8 * (1 - fastDecay),
    Gamma := lerp p.Gamma 1.0 0.3,
    Saturation := lerp p.Saturation 0.8 0.3,
    BeatDistortion := p.BeatDistortion * superFastDecay,
    BeatZoom := p.BeatZoom * superFastDecay,
    DistortAmplitude := p.DistortAmplitude * superFastDecay,
    NoiseScale := lerp p.NoiseScale 0.006 0.4,
    GlyphSharpness := lerp p.GlyphSharpness 1.0 0.3,
    Vignette := lerp p.Vignette 0.25 0.4 }

/-- `ApplyFeatures` (params.go lines 76–143).  A features value equal to the
zero struct takes the silence-decay path; otherwise the audio-driven update
runs, with the drop/beat kick overriding the smooth targets. -/
noncomputable def ApplyFeatures (p : Parameters) (feat : Features) (delta : ℝ) : Parameters :=
  if feat = featuresZero then applySilenceDecay p delta
  else
    let energy := maxFloat 0.05 (feat.Bass * 0.7 + feat.Mid * 0.2 + feat.Treble * 0.1)
    let bassMultiplier := 1 + feat.Bass * p.BassInfluence * 1.5
    let amplitude := lerp p.Amplitude bassMultiplier 0.85
    let noiseStrength := feat.BeatStrength * (0.5 + feat.Bass * 0.8)
    let distortAmplitude0 := lerp p.DistortAmplitude (0.4 + feat.Bass * 0.9) 0.75
    let noiseScale := lerp p.NoiseScale (0.004 + feat.Bass * 0.003) 0.6
    let frequency := lerp p.Frequency (6.0 * (1 + feat.Bass * 0.6 + feat.Mid * p.MidInfluence)) 0.6
    let baseSpeed := 0.08 + energy * 0.8
    let trebleBoost := 1 + feat.Treble * p.TrebleInfluence
    let speed := lerp p.Speed (baseSpeed * trebleBoost) 0.6
    let colorShift := goMod (p.ColorShift + feat.Bass * 0.3 + feat.Treble * 0.15) (2 * Real.pi)
    let gamma := lerp p.Gamma (0.9 + feat.Bass * 0.3) 0.3
    let vignette := lerp p.Vignette (0.25 + feat.BeatStrength * 0.15) 0.2
    let glyphSharpness := lerp p.GlyphSharpness (0.9 + feat.BeatStrength * 0.5) 0.35
    let kick : ℝ × ℝ × ℝ × ℝ :=  -- (LastEffectTime, BeatDistortion, BeatZoom, DistortAmplitude)
      if feat.IsDrop then (p.Time, 1.5, 1.2, 1.0)
      else
        let threshold := 0.16 / maxFloat 0.1 p.BeatSensitivity
        if feat.BeatStrength > threshold then (p.Time, 1.0, 0.8, distortAmplitude0)
        else (p.LastEffectTime, p.BeatDistortion, p.BeatZoom, distortAmplitude0)
    let bassBrightness := feat.Bass * 1.2
    let beatBoost := feat.BeatStrength * 0.8
    let targetBrightness := clamp (feat.Overall * 0.8 + bassBrightness + beatBoost) 0 2.5
    let brightness := lerp p.Brightness targetBrightness 0.85
    let bassContrast := feat.Bass * 0.8
    let contrast := lerp p.Contrast (0.8 + energy * 0.6 + bassContrast) 0.7
    let bassSat := feat.Bass * 0.7
    let beatSat := feat.BeatStrength * 0.5
    let targetSat := clamp (0.9 + bassSat + beatSat) 0 1.6
    let saturation :=
      if targetSat > p.Saturation then lerp p.Saturation targetSat 0.85
      else lerp p.Saturation targetSat 0.7
    { p with
      Amplitude := amplitude,
      NoiseStrength := noiseStrength,
      DistortAmplitude := kick.2.2.2,
      NoiseScale := noiseScale,
      Frequency := frequency,
      Speed := speed,
      ColorShift := colorShift,
      Gamma := gamma,
      Vignette := vignette,
      GlyphSharpness := glyphSharpness,
      LastEffectTime := kick.1,
      BeatDistortion := kick.2.1,
      BeatZoom := kick.2.2.1,
      Brightness := brightness,
      Contrast := contrast,
      Saturation := saturation }

/-- Iterated silence steps: `n` repeated `ApplyFeatures` calls with the
all-zero features value and a fixed `delta`. -/
noncomputable def silIter (p : Parameters) (delta : ℝ) (n : ℕ) : Parameters :=
  (fun q => ApplyFeatures q featuresZero delta)^[n] p

end params


open params

/-- C5 features input: bass 0.9, beat strength 0.9, drop flagged; the other
energy fields are arbitrary. -/
noncomputable def c5Feat (mid treble overall : ℝ) : Features :=
  ⟨0.9, mid, treble, overall, 0.9, true⟩

/-- C5 (confirmed).  From the default parameters, one `ApplyFeatures` call
with `Bass = 0.9`, `BeatStrength = 0.9`, `IsDrop = true` sets
`BeatDistortion = 1.5`, `BeatZoom = 1.2`, `DistortAmplitude = 1.0` and
records `LastEffectTime` equal to the current `Time` field. -/
theorem C5_drop_kick (mid treble overall delta : ℝ) :
    (ApplyFeatures Defaults (c5Feat mid treble overall) delta).BeatDistortion = 1.5
    ∧ (ApplyFeatures Defaults (c5Feat mid treble overall) delta).BeatZoom = 1.2
    ∧ (ApplyFeatures Defaults (c5Feat mid treble overall) delta).DistortAmplitude = 1.0
    ∧ (ApplyFeatures Defaults (c5Feat mid treble overall) delta).LastEffectTime
        = Defaults.Time := by
  have hne : c5Feat mid treble overall ≠ featuresZero := by
    intro h
    have := congrArg Features.IsDrop h
    simp [featuresZero, c5Feat] at this
  unfold ApplyFeatures
  rw [if_neg hne]
  simp [c5Feat]

lemma silence_path (p : Parameters) (delta : ℝ) :
    ApplyFeatures p featuresZero delta = applySilenceDecay p delta := by
  unfold ApplyFeatures
  rw [if_pos rfl]

lemma silIter_brightness (p : Parameters) (delta : ℝ) (n : ℕ) :
    (silIter p delta n).Brightness = p.Brightness * (goPow 0.5 (delta * 60)) ^ n := by
  induction n with
  | zero => simp [silIter]
  | succ k ih =>
    have hstep : silIter p delta (k + 1) = ApplyFeatures (silIter p delta k) featuresZero delta := by
      unfold silIter
      exact Function.iterate_succ_apply' _ _ _
    rw [hstep, silence_path]
    show (silIter p delta k).Brightness * goPow 0.5 (delta * 60) = _
    rw [ih]
    ring

lemma silIter_noise (p : Parameters) (delta : ℝ) (n : ℕ) :
    (silIter p delta n).NoiseStrength = p.NoiseStrength * (goPow 0.5 (delta * 60)) ^ n := by
  induction n with
  | zero => simp [silIter]
  | succ k ih =>
    have hstep : silIter p delta (k + 1) = ApplyFeatures (silIter p delta k) featuresZero delta := by
      unfold silIter
      exact Function.iterate_succ_apply' _ _ _
    rw [hstep, silence_path]
    show (silIter p delta k).NoiseStrength * goPow 0.5 (delta * 60) = _
    rw [ih]
    ring

lemma silIter_amplitude (p : Parameters) (delta : ℝ) (n : ℕ) :
    (silIter p delta n).Amplitude = p.Amplitude * (goPow 0.75 (delta * 60)) ^ n := by
  induction n with
  | zero => simp [silIter]
  | succ k ih =>
    have hstep : silIter p delta (k + 1) = ApplyFeatures (silIter p delta k) featuresZero delta := by
      unfold silIter
      exact Function.iterate_succ_apply' _ _ _
    rw [hstep, silence_path]
    show (silIter p delta k).Amplitude * goPow 0.75 (delta * 60) = _
    rw [ih]
    ring

lemma goPow_decay_mem {b : ℝ} (hb0 : 0 ≤ b) (hb1 : b ≤ 1) {delta : ℝ} (hd : 0 < delta) :
    0 ≤ goPow b (delta * 60) ∧ goPow b (delta * 60) ≤ 1 :=
  ⟨Real.rpow_nonneg hb0 _, Real.rpow_le_one hb0 hb1 (by positivity)⟩

lemma decay_seq_antitone {c r : ℝ} (hc : 0 ≤ c) (hr0 : 0 ≤ r) (hr1 : r ≤ 1) (n : ℕ) :
    c * r ^ (n + 1) ≤ c * r ^ n := by
  have : r ^ (n + 1) ≤ r ^ n := pow_le_pow_of_le_one hr0 hr1 (by omega)
  exact mul_le_mul_of_nonneg_left this hc

/-- C6 (confirmed).  The all-zero features value takes the silence-decay
path; a single step multiplies `Brightness` and `NoiseStrength` by
`0.5 ^ (delta*60)` and `Amplitude` by `0.75 ^ (delta*60)`, so for every
fixed `delta > 0` (and nonnegative starting values, as in `Defaults`) the
three fields decrease monotonically toward their resting value 0, and
`Brightness` converges to 0. -/
theorem C6_silence_convergence (p : Parameters) (delta : ℝ) :
    ApplyFeatures p featuresZero delta = applySilenceDecay p delta
    ∧ (ApplyFeatures p featuresZero delta).Brightness = p.Brightness * goPow 0.5 (delta * 60)
    ∧ (ApplyFeatures p featuresZero delta).NoiseStrength
        = p.NoiseStrength * goPow 0.5 (delta * 60)
    ∧ (ApplyFeatures p featuresZero delta).Amplitude = p.Amplitude * goPow 0.75 (delta * 60)
    ∧ (0 < delta →
        (0 ≤ p.Brightness →
          ∀ n, (silIter p delta (n + 1)).Brightness ≤ (silIter p delta n).Brightness)
        ∧ (0 ≤ p.NoiseStrength →
          ∀ n, (silIter p delta (n + 1)).NoiseStrength ≤ (silIter p delta n).NoiseStrength)
        ∧ (0 ≤ p.Amplitude →
          ∀ n, (silIter p delta (n + 1)).Amplitude ≤ (silIter p delta n).Amplitude)
        ∧ Filter.Tendsto (fun n => (silIter p delta n).Brightness) Filter.atTop (nhds 0)) := by
  refine ⟨silence_path p delta, ?_, ?_, ?_, ?_⟩
  · rw [silence_path]; rfl
  · rw [silence_path]; rfl
  · rw [silence_path]; rfl
  · intro hd
    have h05 := goPow_decay_mem (by norm_num) (by norm_num : (0.5:ℝ) ≤ 1) hd
    have h075 := goPow_decay_mem (by norm_num) (by norm_num : (0.75:ℝ) ≤ 1) hd
    refine ⟨?_, ?_, ?_, ?_⟩
    · intro hB n
      rw [silIter_brightness, silIter_brightness]
      exact decay_seq_antitone hB h05.1 h05.2 n
    · intro hN n
      rw [silIter_noise, silIter_noise]
      exact decay_seq_antitone hN h05.1 h05.2 n
    · intro hA n
      rw [silIter_amplitude, silIter_amplitude]
      exact decay_seq_antitone hA h075.1 h075.2 n
    · have hlt : goPow 0.5 (delta * 60) < 1 :=
        Real.rpow_lt_one (by norm_num) (by norm_num) (by positivity)
      have := Filter.Tendsto.const_mul p.Brightness
        (tendsto_pow_atTop_nhds_zero_of_lt_one h05.1 hlt)
      simp only [mul_zero] at this
      simp only [silIter_brightness]
      exact this

/-- C6 witness: the theorem applied at the default parameters with the
60 fps frame delta, discharging the positivity and nonnegativity
hypotheses, and extracting the convergence of `Brightness` to 0. -/
theorem C6_witness :
    (0:ℝ) < 1/60 ∧ 0 ≤ Defaults.Brightness ∧
    Filter.Tendsto (fun n => (silIter Defaults (1/60) n).Brightness) Filter.atTop (nhds 0) :=
  ⟨by norm_num, by norm_num [Defaults],
   ((C6_silence_convergence Defaults (1/60)).2.2.2.2 (by norm_num)).2.2.2⟩


namespace render

/-! ## Package internal/render -/

open analyzer
open params

/-- Glyph palettes from palette.go (exact rune sequences of the source). -/
def defaultPalette : List Char := "  .,:-;+=*%#@в–“в–’в–‘в–Ҳв–ҡв–һв–ӣв–ңв–ҷв–ҹв–ҳв–қв–—в––в–һв–ҡв•ұв•Ів•ів•Ӣв•¬в•җв•‘в•”в•—в•ҡв•қв–Өв–Ҙв–§в–Ёв–©в–Ұ".toList

/-- Box-drawing palette. -/
def boxPalette : List Char := " в–‘в–’в–“в–Ҳв–ҡв–һв–ӣв–ңв–ҷв–ҹ".toList

/-- Line-drawing palette. -/
def linesPalette : List Char := " `.-=+*/\\|в•ұв•Ів•ів•”в•—в•ҡв•қв•җв•‘в•¬".toList

/-- Sparkle palette. -/
def sparkPalette : List Char := "  Вҙ`^\"~:;*+Г—вҖўВӨВ°oO@#в–Ҳ".toList

/-- `Palette` returns characters used for brightness mapping; unknown names
(and "default") yield the default palette. -/
def Palette (name : String) : List Char :=
  match name with
  | "box" => boxPalette
  | "lines" => linesPalette
  | "spark" => sparkPalette
  | _ => defaultPalette


/-- The color modes of renderer.go. -/
inductive ColorMode
  | chromatic
  | fire
  | aurora
  | mono
deriving DecidableEq

/-- The quality presets of renderer.go. -/
inductive Quality
  | high
  | balanced
  | eco
deriving DecidableEq

/-- `parseColorMode`: lower-cases the name and maps the recognised aliases;
everything else falls back to chromatic. -/
def parseColorMode (name : String) : ColorMode :=
  match goToLower name with
  | "fire" => ColorMode.fire
  | "aurora" => ColorMode.aurora
  | "cool" => ColorMode.aurora
  | "mono" => ColorMode.mono
  | "monochrome" => ColorMode.mono
  | "bw" => ColorMode.mono
  | "gray" => ColorMode.mono
  | _ => ColorMode.chromatic

/-- `parseQualityMode`: lower-cases and maps aliases; fallback is balanced. -/
def parseQualityMode (name : String) : Quality :=
  match goToLower name with
  | "eco" => Quality.eco
  | "low" => Quality.eco
  | "pi" => Quality.eco
  | "balanced" => Quality.balanced
  | "medium" => Quality.balanced
  | "mid" => Quality.balanced
  | "high" => Quality.high
  | "full" => Quality.high
  | "max" => Quality.high
  | _ => Quality.balanced

/-- The sixteen registered pattern functions of patterns.go, as a closed
enumeration standing for the Go function pointers. -/
inductive PatternKind
  | flash
  | spark
  | scatter
  | beam
  | ripple
  | laser
  | orbit
  | explosion
  | rings
  | zigzag
  | cross
  | spiral
  | star
  | tunnel
  | neurons
  | fractal
deriving DecidableEq

/-- `patternRegistry` of patterns.go: name, function, and detail-mix weight.
Note that no "plasma" entry exists in the source registry. -/
noncomputable def patternRegistry : List (String × PatternKind × ℝ) :=
  [("flash", PatternKind.flash, 0.0),
   ("spark", PatternKind.spark, 0.1),
   ("scatter", PatternKind.scatter, 0.0),
   ("beam", PatternKind.beam, 0.0),
   ("ripple", PatternKind.ripple, 0.1),
   ("laser", PatternKind.laser, 0.0),
   ("orbit", PatternKind.orbit, 0.0),
   ("explosion", PatternKind.explosion, 0.1),
   ("rings", PatternKind.rings, 0.0),
   ("zigzag", PatternKind.zigzag, 0.0),
   ("cross", PatternKind.cross, 0.0),
   ("spiral", PatternKind.spiral, 0.1),
   ("star", PatternKind.star, 0.0),
   ("tunnel", PatternKind.tunnel, 0.1),
   ("neurons", PatternKind.neurons, 0.0),
   ("fractal", PatternKind.fractal, 0.1)]

/-- Go map lookup in the registry (present keys only). -/
noncomputable def registryGet (key : String) : Option (PatternKind × ℝ) :=
  (patternRegistry.find? (fun e => e.1 == key)).map Prod.snd

/-- `setNoiseProfile`: the process-wide atomic octave counter as a function
of the quality preset (eco 1, balanced 2, high 4).  Exactly one renderer
exists per session, so the global always holds the value for the current
quality preset; we pass it explicitly to the noise sampler. -/
def octavesFor (q : Quality) : ℤ :=
  match q with
  | Quality.eco => 1
  | Quality.balanced => 2
  | Quality.high => 4

/-- `hash2` of patterns.go: a murmur-style integer mix of the two lattice
coordinates.  The Go conversions `int64(x)`, `uint64`, `uint32` and the
64-bit arithmetic are modelled with explicit truncation and `% 2^64`. -/
noncomputable def hash2 (x y : ℝ) : ℝ :=
  let xi := intTrunc x
  let yi := intTrunc y
  let ux : ℕ := (xi.emod (2 ^ 64)).toNat
  let uy : ℕ := (yi.emod (2 ^ 32)).toNat
  let n0 : ℕ := ((ux <<< 32) % 2 ^ 64) ^^^ uy
  let n1 : ℕ := ((n0 ^^^ (n0 >>> 33)) * 0xff51afd7ed558ccd) % 2 ^ 64
  let n2 : ℕ := ((n1 ^^^ (n1 >>> 33)) * 0xc4ceb9fe1a85ec53) % 2 ^ 64
  let n3 : ℕ := n2 ^^^ (n2 >>> 33)
  ((n3 &&& 0xffffff : ℕ) : ℝ) / 16777216

/-- `smoothstep` of patterns.go. -/
noncomputable def smoothstep (v : ℝ) : ℝ := v * v * (3 - 2 * v)

/-- `valueNoise2`: bilinear interpolation of hashed lattice corners. -/
noncomputable def valueNoise2 (x y : ℝ) : ℝ :=
  let x0 := goFloor x
  let y0 := goFloor y
  let x1 := x0 + 1
  let y1 := y0 + 1
  let sx := smoothstep (x - x0)
  let sy := smoothstep (y - y0)
  let n00 := hash2 x0 y0
  let n10 := hash2 x1 y0
  let n01 := hash2 x0 y1
  let n11 := hash2 x1 y1
  let ix0 := lerp n00 n10 sx
  let ix1 := lerp n01 n11 sx
  lerp ix0 ix1 sy

/-- `fractalNoise`: multi-octave value noise, rescaled to `[-1, 1]`.  The
octave count comes from the quality-controlled global counter. -/
noncomputable def fractalNoise (octaves0 : ℤ) (x y : ℝ) : ℝ :=
  let octaves := if octaves0 ≤ 0 then 1 else octaves0
  let st : ℝ × ℝ × ℝ × ℝ :=  -- (amp, freq, total, sumAmp)
    (List.range octaves.toNat).foldl
      (fun acc _ =>
        (acc.1 * 0.5, acc.2.1 * 2,
         acc.2.2.1 + valueNoise2 (x * acc.2.1) (y * acc.2.1) * acc.1,
         acc.2.2.2 + acc.1))
      (0.5, 1, 0, 0)
  if st.2.2.2 = 0 then 0 else (st.2.2.1 / st.2.2.2) * 2 - 1


/-- `patternFlash`: intense flashes from center on beat. -/
noncomputable def patternFlash (x y : ℝ) (p : Parameters) (t : ℝ) : ℝ :=
  let r := Real.sqrt (x * x + y * y)
  if r > 0.3 then -1
  else
    let flash := (0.3 - r) * 3
    let beat := p.BeatDistortion * 2
    let intensity := flash + beat
    if intensity > 0.8 then intensity else -1

/-- `patternSpark`: sparks exploding from center. -/
noncomputable def patternSpark (x y : ℝ) (p : Parameters) (t : ℝ) : ℝ :=
  let angle := atan2 y x
  let rays := angle * 2.5 + t * 2
  let rayVal := rays - goFloor rays
  if rayVal < 0.15 ∨ rayVal > 0.85 then
    let r := Real.sqrt (x * x + y * y)
    if r < 1.2 then p.BeatDistortion * 3 * (1.2 - r) else -1
  else -1

/-- `patternScatter`: scattered particles. -/
noncomputable def patternScatter (x y : ℝ) (p : Parameters) (t : ℝ) : ℝ :=
  let cellX := goFloor (x * 5 + t)
  let cellY := goFloor (y * 5 + t * 0.8)
  let noise := hash2 cellX cellY
  let threshold := 0.95 - p.Amplitude * 0.1
  if noise > threshold then (noise - threshold) * 20 else -1

/-- `patternBeam`: vertical beams. -/
noncomputable def patternBeam (x y : ℝ) (p : Parameters) (t : ℝ) : ℝ :=
  let beamPos0 := t * 0.3
  let beamPos1 := beamPos0 - goFloor beamPos0
  let beamPos := (beamPos1 - 0.5) * 1.6
  let dist0 := x - beamPos
  let dist := if dist0 < 0 then -dist0 else dist0
  if dist < 0.08 then (0.08 - dist) * 12 * p.Amplitude else -1

/-- `patternRipple`: ripples from center. -/
noncomputable def patternRipple (x y : ℝ) (p : Parameters) (t : ℝ) : ℝ :=
  let r := Real.sqrt (x * x + y * y)
  let wave := r * 3 - t * 3
  let ripple := wave - goFloor wave
  if ripple < 0.1 ∨ ripple > 0.9 then
    let dist := min ripple (1 - ripple)
    dist * 20 * p.Amplitude
  else -1

/-- `patternTunnel`: tunnel perspective effect. -/
noncomputable def patternTunnel (x y : ℝ) (p : Parameters) (t : ℝ) : ℝ :=
  let r := Real.sqrt (x * x + y * y)
  if r < 0.1 then -1
  else
    let angle := atan2 y x
    let depth := 1 / r - t * 2
    let tunnel := depth - goFloor depth
    if tunnel < 0.1 then
      let angleSnap := goFloor (angle * 8 / (2 * Real.pi))
      if goMod angleSnap 2 < 1 then tunnel * 10 * (0.5 + p.BeatDistortion) else -1
    else -1

/-- `patternNeurons`: three moving nodes and their connecting segments. -/
noncomputable def patternNeurons (x y : ℝ) (p : Parameters) (t : ℝ) : ℝ :=
  let n1x := Real.sin (t * 0.3)
  let n1y := Real.cos (t * 0.4)
  let n2x := Real.sin (t * 0.5 + 2)
  let n2y := Real.cos (t * 0.3 - 1)
  let n3x := Real.sin (t * 0.4 - 1.5)
  let n3y := Real.cos (t * 0.6 + 0.5)
  let d1 := Real.sqrt ((x - n1x) * (x - n1x) + (y - n1y) * (y - n1y))
  let d2 := Real.sqrt ((x - n2x) * (x - n2x) + (y - n2y) * (y - n2y))
  let d3 := Real.sqrt ((x - n3x) * (x - n3x) + (y - n3y) * (y - n3y))
  if d1 < 0.12 then (0.12 - d1) * 8 * p.Amplitude
  else if d2 < 0.12 then (0.12 - d2) * 8 * p.Amplitude
  else if d3 < 0.12 then (0.12 - d3) * 8 * p.Amplitude
  else
    -- segment (n1, n2)
    let dx12 := n2x - n1x
    let dy12 := n2y - n1y
    let tl12 := ((x - n1x) * dx12 + (y - n1y) * dy12) / (dx12 * dx12 + dy12 * dy12)
    let sd12 := Real.sqrt ((x - (n1x + tl12 * dx12)) * (x - (n1x + tl12 * dx12))
      + (y - (n1y + tl12 * dy12)) * (y - (n1y + tl12 * dy12)))
    if tl12 ≥ 0 ∧ tl12 ≤ 1 ∧ sd12 < 0.03 then (0.03 - sd12) * 15 * p.BeatDistortion * 2
    else
      -- segment (n1, n3)
      let dx13 := n3x - n1x
      let dy13 := n3y - n1y
      let tl13 := ((x - n1x) * dx13 + (y - n1y) * dy13) / (dx13 * dx13 + dy13 * dy13)
      let sd13 := Real.sqrt ((x - (n1x + tl13 * dx13)) * (x - (n1x + tl13 * dx13))
        + (y - (n1y + tl13 * dy13)) * (y - (n1y + tl13 * dy13)))
      if tl13 ≥ 0 ∧ tl13 ≤ 1 ∧ sd13 < 0.03 then (0.03 - sd13) * 15 * p.BeatDistortion * 2
      else
        -- segment (n2, n3)
        let dx23 := n3x - n2x
        let dy23 := n3y - n2y
        let tl23 := ((x - n2x) * dx23 + (y - n2y) * dy23) / (dx23 * dx23 + dy23 * dy23)
        let sd23 := Real.sqrt ((x - (n2x + tl23 * dx23)) * (x - (n2x + tl23 * dx23))
          + (y - (n2y + tl23 * dy23)) * (y - (n2y + tl23 * dy23)))
        if tl23 ≥ 0 ∧ tl23 ≤ 1 ∧ sd23 < 0.03 then (0.03 - sd23) * 15 * p.BeatDistortion * 2
        else -1

/-- `patternFractal`: fractal branches. -/
noncomputable def patternFractal (x y : ℝ) (p : Parameters) (t : ℝ) : ℝ :=
  let angle := atan2 y x
  let r := Real.sqrt (x * x + y * y)
  let branches := 5
  let branchAngle0 := goMod (angle * branches + t) (2 * Real.pi)
  let branchAngle := if branchAngle0 > Real.pi then 2 * Real.pi - branchAngle0 else branchAngle0
  let scale := Real.sin (r * 4 - t * 2)
  if branchAngle < 0.2 ∧ scale > 0.5 ∧ r < 1.2 then
    (0.2 - branchAngle) * 15 * (scale - 0.5) * (0.5 + p.Amplitude)
  else -1

/-- `patternLaser`: crossing laser lines. -/
noncomputable def patternLaser (x y : ℝ) (p : Parameters) (t : ℝ) : ℝ :=
  let lineY := x + y * 0.5 + t
  let dist0 := lineY - goFloor lineY
  let dist := if dist0 > 0.5 then 1 - dist0 else dist0
  if dist < 0.04 then
    let beat := p.BeatDistortion * 2
    (0.04 - dist) * 25 * (0.5 + beat)
  else -1

/-- `patternOrbit`: circular orbits. -/
noncomputable def patternOrbit (x y : ℝ) (p : Parameters) (t : ℝ) : ℝ :=
  let r := Real.sqrt (x * x + y * y)
  let angle := atan2 y x
  let orbit := angle * 2 + r * 4 - t * 2
  let val := orbit - goFloor orbit
  let ringDist0 := r - 0.5
  let ringDist := if ringDist0 < 0 then -ringDist0 else ringDist0
  if ringDist < 0.15 ∧ val > 0.85 then p.Amplitude * 5 else -1

/-- `patternExplosion`: expanding ring from center. -/
noncomputable def patternExplosion (x y : ℝ) (p : Parameters) (t : ℝ) : ℝ :=
  let r := Real.sqrt (x * x + y * y)
  let wave := r * 4 - t * 3
  let val := wave - goFloor wave
  if val < 0.15 ∨ val > 0.85 then
    let beat := p.BeatDistortion * 3
    let edgeDist := min val (1 - val)
    edgeDist * 20 * (0.3 + beat)
  else -1

/-- `patternRings`: concentric pulsing rings. -/
noncomputable def patternRings (x y : ℝ) (p : Parameters) (t : ℝ) : ℝ :=
  let r := Real.sqrt (x * x + y * y)
  let rings := Real.sin (r * 8 - t * 3)
  if rings > 0.7 then (rings - 0.7) * 10 * p.Amplitude else -1

/-- `patternZigzag`: zigzag lightning. -/
noncomputable def patternZigzag (x y : ℝ) (p : Parameters) (t : ℝ) : ℝ :=
  let zigX := Real.sin (y * 5 + t * 2) * 0.3
  let dist := |x - zigX|
  if dist < 0.06 then (0.06 - dist) * 16 * (0.5 + p.BeatDistortion * 2) else -1

/-- `patternCross`: rotating cross. -/
noncomputable def patternCross (x y : ℝ) (p : Parameters) (t : ℝ) : ℝ :=
  let angle0 := atan2 y x + t
  let angle := angle0 - goFloor (angle0 / (Real.pi / 2)) * (Real.pi / 2)
  if |angle| < 0.1 ∨ |angle - Real.pi / 2| < 0.1 then
    let r := Real.sqrt (x * x + y * y)
    if r < 1 then (1 - r) * p.Amplitude * 3 else -1
  else -1

/-- `patternSpiral`: spiral arms. -/
noncomputable def patternSpiral (x y : ℝ) (p : Parameters) (t : ℝ) : ℝ :=
  let r := Real.sqrt (x * x + y * y)
  let angle := atan2 y x
  let spiral := angle * 3 - r * 8 + t * 3
  let val := spiral - goFloor spiral
  if val < 0.12 then val * 25 * p.Amplitude else -1

/-- `patternStar`: star burst rays. -/
noncomputable def patternStar (x y : ℝ) (p : Parameters) (t : ℝ) : ℝ :=
  let angle := atan2 y x + t
  let points := 8
  let starAngle0 := goMod (angle * points) (2 * Real.pi)
  let starAngle := if starAngle0 > Real.pi then 2 * Real.pi - starAngle0 else starAngle0
  if starAngle < 0.3 then
    let r := Real.sqrt (x * x + y * y)
    if r < 1.2 ∧ r > 0.2 then (0.3 - starAngle) * 10 * (0.5 + p.BeatDistortion * 2)
    else -1
  else -1

/-- Dispatch from the pattern enumeration to its evaluation function. -/
noncomputable def patternEval (k : PatternKind) : ℝ → ℝ → Parameters → ℝ → ℝ :=
  match k with
  | PatternKind.flash => patternFlash
  | PatternKind.spark => patternSpark
  | PatternKind.scatter => patternScatter
  | PatternKind.beam => patternBeam
  | PatternKind.ripple => patternRipple
  | PatternKind.laser => patternLaser
  | PatternKind.orbit => patternOrbit
  | PatternKind.explosion => patternExplosion
  | PatternKind.rings => patternRings
  | PatternKind.zigzag => patternZigzag
  | PatternKind.cross => patternCross
  | PatternKind.spiral => patternSpiral
  | PatternKind.star => patternStar
  | PatternKind.tunnel => patternTunnel
  | PatternKind.neurons => patternNeurons
  | PatternKind.fractal => patternFractal


/-- Renderer state (renderer.go).  The cached coordinate tables `xCoords`
and `yCoords` are deterministic functions of the dimensions (rebuilt by
`ensureCoordinateCache` whenever the length differs), so they are not
carried as state here; `Render` recomputes the same values.  The status
string builder is presentation-only and omitted. -/
structure Renderer where
  width : ℤ
  height : ℤ
  palette : List Char
  paletteName : String
  pattern : Option PatternKind
  patternName : String
  detailMix : ℝ
  colorMode : ColorMode
  quality : Quality
  colorOnAudio : Bool
  useANSI : Bool

/-- One builder event of an output line: an ANSI escape string or a glyph
rune (renderer.go writes them through a `strings.Builder`). -/
inductive LineElem
  | code (s : String)
  | glyph (c : Char)

/-- A rendered frame: the list of output lines, each the sequence of builder
events.  The human-readable status string is presentation-only and not
modelled. -/
structure Frame where
  lines : List (List LineElem)

/-- The ANSI reset sequence. -/
def resetANSI : String := "\x1b[0m"

/-- `colorCode`: the 256-color ANSI foreground escape for a clamped index
(the precomputed table of renderer.go holds exactly these strings). -/
def colorCode (index : ℤ) : String :=
  let i := if index < 0 then 0 else if index ≥ 256 then 255 else index
  "\x1b[38;5;" ++ toString i ++ "m"

/-- `Configure` (renderer.go lines 138–162): empty palette name falls back
to "default"; the lower-cased pattern key (empty becomes "plasma") is looked
up in the registry, and on a miss the Go code reads
`patternRegistry["plasma"]` — a key that does not exist, so the Go map
yields the zero value `patternEntry{fn: nil, detailMix: 0}` and the
renderer is left with a nil pattern function. -/
noncomputable def Configure (r : Renderer) (paletteName patternName colorModeName : String)
    (colorOnAudio : Bool) : Renderer :=
  let pn := if paletteName = "" then "default" else paletteName
  let r1 := { r with palette := Palette pn, paletteName := pn }
  let key0 := goToLower patternName
  let key := if key0 = "" then "plasma" else key0
  let r2 :=
    match registryGet key with
    | some e => { r1 with pattern := some e.1, patternName := key, detailMix := e.2 }
    | none =>
      let deflt := registryGet "plasma"
      { r1 with pattern := deflt.map Prod.fst, patternName := "plasma",
                detailMix := (deflt.map Prod.snd).getD 0 }
  { r2 with colorMode := parseColorMode colorModeName, colorOnAudio := colorOnAudio }

/-- `SetQuality` (renderer.go): empty name becomes "balanced"; the global
noise profile follows the stored quality via `octavesFor`. -/
noncomputable def SetQuality (r : Renderer) (name : String) : Renderer :=
  let nm := if name = "" then "balanced" else name
  { r with quality := parseQualityMode nm }

/-- `New` (renderer.go lines 121–135): rejects nonpositive dimensions with
an error (`none`), otherwise configures a fresh renderer. -/
noncomputable def New (width height : ℤ)
    (paletteName patternName colorModeName qualityName : String)
    (colorOnAudio useANSI : Bool) : Option Renderer :=
  if width ≤ 0 ∨ height ≤ 0 then none
  else some (Configure
    (SetQuality
      { width := width, height := height, palette := [], paletteName := "",
        pattern := none, patternName := "", detailMix := 0,
        colorMode := ColorMode.chromatic, quality := Quality.balanced,
        colorOnAudio := false, useANSI := useANSI }
      qualityName)
    paletteName patternName colorModeName colorOnAudio)

/-- `Resize` (renderer.go lines 165–183): nonpositive dimension arguments
are ignored; a change only invalidates the coordinate caches (which this
model recomputes in `Render`). -/
def Resize (r : Renderer) (width height : ℤ) : Renderer :=
  { r with
    width := if width > 0 then width else r.width,
    height := if height > 0 then height else r.height }

/-- Folding a sequence of `Resize` calls. -/
def applyResizes (r : Renderer) (l : List (ℤ × ℤ)) : Renderer :=
  l.foldl (fun acc x => Resize acc x.1 x.2) r

/-- The per-frame context `frameParams` (renderer.go lines 368–385). -/
structure frameParams where
  time : ℝ
  zoom : ℝ
  sinRot : ℝ
  cosRot : ℝ
  noiseScale : ℝ
  warpStrength : ℝ
  detailWeight : ℝ
  amplitude : ℝ
  invGamma : ℝ
  invContrast : ℝ
  brightnessScale : ℝ
  vignette : ℝ
  vignetteSoft : ℝ
  glyphSharpness : ℝ
  swirlStrength : ℝ
  quality : Quality

/-- `clamp01` of renderer.go. -/
noncomputable def clamp01 (v : ℝ) : ℝ := if v < 0 then 0 else if v > 1 then 1 else v

/-- `buildFrameParams` (renderer.go lines 387–429). -/
noncomputable def buildFrameParams (r : Renderer) (p : Parameters) (time : ℝ) : frameParams :=
  let zoom0 := 1 + p.BeatZoom * 0.35 * Real.sin (time * 2.1)
  let sinRot := Real.sin (time * 0.2)
  let cosRot := Real.cos (time * 0.2)
  let noiseScale := max 0.001 (p.NoiseScale * 40)
  let warpStrength0 := p.NoiseStrength * 0.35
  let detailWeight0 := clamp (r.detailMix * p.NoiseStrength) 0 1
  let amplitude := clamp p.Amplitude 0 3
  let invGamma := 1 / max 0.1 p.Gamma
  let invContrast := 1 / max 0.2 p.Contrast
  let vignetteSoft := clamp01 p.VignetteSoftness
  let swirlStrength0 := p.DistortAmplitude * (0.5 + p.BeatDistortion * 0.5)
  let adjusted : ℝ × ℝ × ℝ × ℝ :=  -- (zoom, detailWeight, warpStrength, swirlStrength)
    match r.quality with
    | Quality.eco => (lerp 1 zoom0 0.6, detailWeight0 * 0.35, warpStrength0 * 0.6, swirlStrength0 * 0.7)
    | Quality.balanced => (zoom0, detailWeight0 * 0.75, warpStrength0 * 0.85, swirlStrength0 * 0.9)
    | Quality.high => (zoom0, detailWeight0, warpStrength0, swirlStrength0)
  { time := time, zoom := adjusted.1, sinRot := sinRot, cosRot := cosRot,
    noiseScale := noiseScale, warpStrength := adjusted.2.2.1,
    detailWeight := adjusted.2.1, amplitude := amplitude, invGamma := invGamma,
    invContrast := invContrast, brightnessScale := clamp p.Brightness 0 3,
    vignette := clamp p.Vignette 0 1, vignetteSoft := vignetteSoft,
    glyphSharpness := max 0.2 p.GlyphSharpness, swirlStrength := adjusted.2.2.2,
    quality := r.quality }

/-- `audioActivation` (renderer.go lines 570–579). -/
noncomputable def audioActivation (r : Renderer) (feat : Features) : ℝ :=
  if !r.colorOnAudio then 1
  else
    let base0 := feat.Overall * 1.45 + feat.BeatStrength * 0.6
    let base := if feat.IsDrop then base0 + 0.3 else base0
    clamp01 base

/-- `hsvToRGB` (renderer.go lines 486–516). -/
noncomputable def hsvToRGB (h s v : ℝ) : ℝ × ℝ × ℝ :=
  let h := clamp01 h
  let s := clamp01 s
  let v := clamp01 v
  if s = 0 then (v, v, v)
  else
    let hv := h * 6
    let i := goFloor hv
    let f := hv - i
    let pp := v * (1 - s)
    let q := v * (1 - s * f)
    let tt := v * (1 - s * (1 - f))
    match (intTrunc i).emod 6 with
    | 0 => (v, tt, pp)
    | 1 => (q, v, pp)
    | 2 => (pp, v, tt)
    | 3 => (pp, q, v)
    | 4 => (tt, pp, v)
    | _ => (v, pp, q)

/-- `rgbToANSI` (renderer.go lines 518–534): grayscale ramp for
near-achromatic colors, else the 6x6x6 color cube. -/
noncomputable def rgbToANSI (r g b : ℝ) : ℤ :=
  let r := clamp01 r
  let g := clamp01 g
  let b := clamp01 b
  if |r - g| < 0.02 ∧ |g - b| < 0.02 then
    let gray := intTrunc (clamp (goRound (r * 23)) 0 23)
    232 + gray
  else
    let ri := intTrunc (clamp (r * 5 + 0.5) 0 5)
    let gi := intTrunc (clamp (g * 5 + 0.5) 0 5)
    let bi := intTrunc (clamp (b * 5 + 0.5) 0 5)
    16 + 36 * ri + 6 * gi + bi

/-- `hsvToANSI`. -/
noncomputable def hsvToANSI (h s v : ℝ) : ℤ :=
  let rgb := hsvToRGB h s v
  rgbToANSI rgb.1 rgb.2.1 rgb.2.2

/-- `colorFromMode` (renderer.go lines 431–470). -/
noncomputable def colorFromMode (r : Renderer) (base brightness : ℝ) (p : Parameters)
    (feat : Features) (activation : ℝ) : ℝ × ℝ × ℝ :=
  let baseNorm := clamp01 ((base + 1) * 0.5)
  let shift0 := goMod (p.ColorShift / (2 * Real.pi)) 1
  let shift := if shift0 < 0 then shift0 + 1 else shift0
  let hsv : ℝ × ℝ × ℝ :=
    match r.colorMode with
    | ColorMode.fire =>
      (clamp01 (0.02 + baseNorm * 0.08 + shift * 0.1),
       clamp01 (0.7 + brightness * 0.25),
       clamp01 (0.35 + brightness * 0.8 + baseNorm * 0.2))
    | ColorMode.aurora =>
      (clamp01 (0.45 + baseNorm * 0.25 + shift * 0.3),
       clamp01 (0.45 + p.Saturation * 0.45),
       clamp01 (0.28 + brightness * 0.85 + baseNorm * 0.12))
    | ColorMode.mono => (shift, 0, clamp01 brightness)
    | ColorMode.chromatic =>
      (clamp01 (shift + baseNorm * 0.35),
       clamp01 (0.35 + p.Saturation * 0.5),
       clamp01 (brightness * 0.9 + baseNorm * 0.2))
  if r.colorOnAudio then
    let act := if feat.IsDrop then clamp01 (activation + 0.2) else activation
    let s1 := clamp01 (hsv.2.1 * act)
    let v1 := clamp01 (0.05 + hsv.2.2 * act)
    let s2 := if act < 0.08 then 0 else s1
    (hsv.1, s2, v1)
  else hsv

/-- `ensureCoordinateCache` contents (renderer.go lines 581–608): the
normalized coordinate table for one axis. -/
noncomputable def coordCache (n : ℤ) : List ℝ :=
  if n ≤ 1 then List.replicate n.toNat 0
  else (List.range n.toNat).map (fun i => (i : ℝ) * (1 / (n : ℝ)) - 0.5)

/-- `samplePixel` (renderer.go lines 282–366), in the `Option` monad: the
call of the nil pattern function installed by the broken "plasma" fallback,
or indexing an empty palette, is a Go panic, modelled as `none`. -/
noncomputable def samplePixel (r : Renderer) (vx vy : ℝ) (p : Parameters) (ctx : frameParams)
    (feat : Features) (activation : ℝ) : Option (Char × ℤ) :=
  let baseX := vx * ctx.zoom
  let baseY := vy * ctx.zoom
  let rotX := baseX * ctx.cosRot - baseY * ctx.sinRot
  let rotY := baseX * ctx.sinRot + baseY * ctx.cosRot
  let radius0 := Real.sqrt (rotX * rotX + rotY * rotY)
  let angle0 := atan2 rotY rotX
  let swirl : ℝ × ℝ :=  -- (radius, angle)
    if ctx.swirlStrength ≠ 0 then
      let strength :=
        match ctx.quality with
        | Quality.eco => ctx.swirlStrength * 0.55
        | Quality.balanced => ctx.swirlStrength * 0.85
        | Quality.high => ctx.swirlStrength
      let atten := Real.exp (-radius0 * 1.6)
      let angle1 := angle0 + strength * atten * Real.sin (ctx.time * 1.5 + radius0 * 2.3)
      let radius1 := radius0 + strength * 0.12 * Real.sin (ctx.time * 1.15 + angle1 * 1.4)
      (radius1, angle1)
    else (radius0, angle0)
  let distorted0 : ℝ × ℝ := (swirl.1 * Real.cos swirl.2, swirl.1 * Real.sin swirl.2)
  let distorted : ℝ × ℝ :=
    if ctx.warpStrength > 0 then
      let warp := fractalNoise (octavesFor ctx.quality)
        ((vx + ctx.time * 0.15) / ctx.noiseScale) ((vy - ctx.time * 0.12) / ctx.noiseScale)
      let strength :=
        match ctx.quality with
        | Quality.eco => ctx.warpStrength * 0.35
        | Quality.balanced => ctx.warpStrength * 0.7
        | Quality.high => ctx.warpStrength
      (distorted0.1 + warp * strength, distorted0.2 + warp * strength)
    else distorted0
  (r.pattern.map (fun k => patternEval k distorted.1 distorted.2 p ctx.time)).bind
    fun patternValue =>
  let combined0 :=
    if ctx.detailWeight > 0 then
      let detail := fractalNoise (octavesFor ctx.quality)
        (distorted.1 * 2 + ctx.time * 0.4) (distorted.2 * 2 - ctx.time * 0.3)
      patternValue * (1 - ctx.detailWeight) + detail * ctx.detailWeight
    else patternValue
  let combined := clamp combined0 (-1) 1
  let brightness0 := clamp01 ((combined * ctx.amplitude + 1) * 0.5)
  let brightness1 :=
    match ctx.quality with
    | Quality.eco => brightness0 * (0.7 + brightness0 * 0.3)
    | _ => goPow (goPow brightness0 ctx.invGamma) ctx.invContrast
  let brightness2 := clamp01 (brightness1 * ctx.brightnessScale)
  let brightness3 :=
    if r.colorOnAudio then clamp01 (lerp 0.04 brightness2 activation) else brightness2
  let brightness4 :=
    if ctx.vignette > 0 then
      let dist := min 1 (Real.sqrt (vx * vx + vy * vy) * 2)
      let vig := clamp01 (1 - ctx.vignette * goPow dist 1.2)
      brightness3 * lerp 1 vig (1 - ctx.vignetteSoft)
    else brightness3
  let brightness := clamp01 brightness4
  let glyphValue :=
    match ctx.quality with
    | Quality.eco => brightness
    | _ => goPow brightness ctx.glyphSharpness
  let index := clampInt (intTrunc (glyphValue * ((r.palette.length : ℤ) - 1 : ℤ) + 0.5))
    0 ((r.palette.length : ℤ) - 1)
  let colorIndex : ℤ :=
    if r.useANSI then
      let hsv := colorFromMode r combined brightness p feat activation
      hsvToANSI hsv.1 hsv.2.1 hsv.2.2
    else 15
  (r.palette.get? index.toNat).map fun ch => (ch, colorIndex)

/-- The builder loop of one output row (renderer.go lines 242–265): when
ANSI is on, a color escape is emitted whenever the color changes, and the
row ends with a reset escape; every cell emits exactly one glyph. -/
def assembleLine (useANSI : Bool) : ℤ → List (Char × ℤ) → List LineElem
  | _, [] => if useANSI then [LineElem.code resetANSI] else []
  | lastColor, (c, fg) :: rest =>
    let newLast := if useANSI ∧ fg ≠ lastColor then fg else lastColor
    if useANSI ∧ fg ≠ lastColor then
      LineElem.code (colorCode fg) :: LineElem.glyph c :: assembleLine useANSI newLast rest
    else
      LineElem.glyph c :: assembleLine useANSI newLast rest

/-- One output row: sample every column, then assemble the builder events
with the initial `lastColor = -1`. -/
noncomputable def renderRow (r : Renderer) (p : Parameters) (feat : Features)
    (ctx : frameParams) (activation scale : ℝ) (xs ys : List ℝ) (y : ℕ) :
    Option (List LineElem) :=
  let vy := ys.getD y 0 * scale
  ((List.range r.width.toNat).mapM
      (fun x => samplePixel r (xs.getD x 0 * scale) vy p ctx feat activation)).map
    (assembleLine r.useANSI (-1))

/-- `Render` (renderer.go lines 205–280).  Nonpositive dimensions yield the
empty frame; otherwise every row is rendered (the worker pool fills the row
slice deterministically, row by row).  The `fps` argument only feeds the
unmodelled status text. -/
noncomputable def Render (r : Renderer) (p : Parameters) (feat : Features) (fps : ℝ) :
    Option Frame :=
  if r.width ≤ 0 ∨ r.height ≤ 0 then some ⟨[]⟩
  else
    let activation := audioActivation r feat
    let timeFactor := p.Time
    let scale := if p.Scale ≤ 0 then 1 else p.Scale
    let ctx := buildFrameParams r p timeFactor
    let xs := coordCache r.width
    let ys := coordCache r.height
    ((List.range r.height.toNat).mapM (renderRow r p feat ctx activation scale xs ys)).map
      Frame.mk


/-! ## Renderer lemmas -/

/-- Number of glyph runes in a line (ANSI escapes excluded). -/
def glyphCount : List LineElem → ℕ
  | [] => 0
  | LineElem.code _ :: rest => glyphCount rest
  | LineElem.glyph _ :: rest => glyphCount rest + 1

lemma assembleLine_glyphCount (u : Bool) (cells : List (Char × ℤ)) :
    ∀ lastColor : ℤ, glyphCount (assembleLine u lastColor cells) = cells.length := by
  induction cells with
  | nil =>
    intro lastColor
    simp only [assembleLine]
    split_ifs <;> rfl
  | cons c rest ih =>
    intro lastColor
    simp only [assembleLine]
    split_ifs <;> simp [glyphCount, ih]

lemma mapM_option_some {α β : Type} (f : α → Option β) :
    ∀ l : List α, (∀ a ∈ l, (f a).isSome) →
      ∃ l2, l.mapM f = some l2 ∧ l2.length = l.length ∧ ∀ b ∈ l2, ∃ a ∈ l, f a = some b := by
  intro l
  induction l with
  | nil => intro _; exact ⟨[], rfl, rfl, by simp⟩
  | cons a rest ih =>
    intro h
    obtain ⟨b, hb⟩ := Option.isSome_iff_exists.mp (h a (List.mem_cons_self a rest))
    obtain ⟨l2, h2, hlen, hmem⟩ := ih (fun x hx => h x (List.mem_cons_of_mem a hx))
    refine ⟨b :: l2, ?_, by simp [hlen], ?_⟩
    · rw [List.mapM_cons, hb, h2]
      rfl
    · intro c hc
      rcases List.mem_cons.mp hc with rfl | hc2
      · exact ⟨a, List.mem_cons_self a rest, hb⟩
      · obtain ⟨x, hx, hfx⟩ := hmem c hc2
        exact ⟨x, List.mem_cons_of_mem a hx, hfx⟩

lemma mapM_option_none_head {α β : Type} (f : α → Option β) (a : α) (l : List α)
    (h : f a = none) : (a :: l).mapM f = none := by
  rw [List.mapM_cons, h]
  rfl

lemma clampInt_mem {lo hi : ℤ} (v : ℤ) (h : lo ≤ hi) :
    lo ≤ clampInt v lo hi ∧ clampInt v lo hi ≤ hi := by
  unfold clampInt
  split_ifs <;> omega

lemma isSome_opt_map {α β : Type} (f : α → β) (o : Option α) :
    (o.map f).isSome = o.isSome := by
  cases o <;> rfl

lemma palette_get_isSome (pal : List Char) (v : ℤ) (h : pal ≠ []) :
    (pal.get? (clampInt v 0 ((pal.length : ℤ) - 1)).toNat).isSome := by
  have hlen : 0 < pal.length := List.length_pos.mpr h
  have hm := clampInt_mem v (by omega : (0:ℤ) ≤ (pal.length : ℤ) - 1)
  have hlt : (clampInt v 0 ((pal.length : ℤ) - 1)).toNat < pal.length := by omega
  rw [List.get?_eq_get hlt]
  rfl

lemma samplePixel_isSome (r : Renderer) (vx vy : ℝ) (p : Parameters) (ctx : frameParams)
    (feat : Features) (activation : ℝ) (hp : r.pattern.isSome) (hpal : r.palette ≠ []) :
    (samplePixel r vx vy p ctx feat activation).isSome := by
  obtain ⟨k, hk⟩ := Option.isSome_iff_exists.mp hp
  simp only [samplePixel, hk, Option.map_some', Option.some_bind]
  rw [isSome_opt_map]
  exact palette_get_isSome r.palette _ hpal

lemma samplePixel_none (r : Renderer) (vx vy : ℝ) (p : Parameters) (ctx : frameParams)
    (feat : Features) (activation : ℝ) (hp : r.pattern = none) :
    samplePixel r vx vy p ctx feat activation = none := by
  simp only [samplePixel, hp, Option.map_none', Option.none_bind]

lemma renderRow_shape (r : Renderer) (p : Parameters) (feat : Features) (ctx : frameParams)
    (activation scale : ℝ) (xs ys : List ℝ) (y : ℕ)
    (hp : r.pattern.isSome) (hpal : r.palette ≠ []) :
    ∃ line, renderRow r p feat ctx activation scale xs ys y = some line
      ∧ glyphCount line = r.width.toNat := by
  obtain ⟨cells, hc, hlen, _⟩ := mapM_option_some
    (fun x => samplePixel r (xs.getD x 0 * scale) (ys.getD y 0 * scale) p ctx feat activation)
    (List.range r.width.toNat)
    (fun a _ => samplePixel_isSome r _ _ p ctx feat activation hp hpal)
  refine ⟨assembleLine r.useANSI (-1) cells, ?_, ?_⟩
  · simp only [renderRow, hc, Option.map_some']
  · rw [assembleLine_glyphCount, hlen, List.length_range]

lemma renderRow_none (r : Renderer) (p : Parameters) (feat : Features) (ctx : frameParams)
    (activation scale : ℝ) (xs ys : List ℝ) (y : ℕ)
    (hp : r.pattern = none) (hw : 1 ≤ r.width) :
    renderRow r p feat ctx activation scale xs ys y = none := by
  have hsplit : r.width.toNat = (r.width.toNat - 1) + 1 := by omega
  simp only [renderRow]
  rw [hsplit, List.range_succ_eq_map,
    mapM_option_none_head
      (fun x => samplePixel r (xs.getD x 0 * scale) (ys.getD y 0 * scale) p ctx feat activation)
      0 (List.map Nat.succ (List.range (r.width.toNat - 1)))
      (samplePixel_none r _ _ p ctx feat activation hp)]
  rfl

lemma render_shape (r : Renderer) (p : Parameters) (feat : Features) (fps : ℝ)
    (hp : r.pattern.isSome) (hpal : r.palette ≠ []) (hw : 1 ≤ r.width) (hh : 1 ≤ r.height) :
    ∃ fr, Render r p feat fps = some fr ∧ fr.lines.length = r.height.toNat
      ∧ ∀ l ∈ fr.lines, glyphCount l = r.width.toNat := by
  have hg : ¬(r.width ≤ 0 ∨ r.height ≤ 0) := by omega
  obtain ⟨rows, hr, hlen, hmem⟩ := mapM_option_some
    (renderRow r p feat (buildFrameParams r p p.Time) (audioActivation r feat)
      (if p.Scale ≤ 0 then 1 else p.Scale) (coordCache r.width) (coordCache r.height))
    (List.range r.height.toNat)
    (fun y _ => by
      obtain ⟨line, hl, _⟩ := renderRow_shape r p feat _ _ _ _ _ y hp hpal
      rw [hl]
      rfl)
  refine ⟨⟨rows⟩, ?_, ?_, ?_⟩
  · simp only [Render]
    rw [if_neg hg, hr]
    rfl
  · simpa [List.length_range] using hlen
  · intro l hl
    obtain ⟨y, _, hy⟩ := hmem l hl
    obtain ⟨line, hline, hcount⟩ := renderRow_shape r p feat _ _ _ _ _ y hp hpal
    rw [hline] at hy
    cases hy
    exact hcount

lemma render_none (r : Renderer) (p : Parameters) (feat : Features) (fps : ℝ)
    (hp : r.pattern = none) (hw : 1 ≤ r.width) (hh : 1 ≤ r.height) :
    Render r p feat fps = none := by
  have hg : ¬(r.width ≤ 0 ∨ r.height ≤ 0) := by omega
  have hsplit : r.height.toNat = (r.height.toNat - 1) + 1 := by omega
  simp only [Render]
  rw [if_neg hg, hsplit, List.range_succ_eq_map,
    mapM_option_none_head
      (renderRow r p feat (buildFrameParams r p p.Time) (audioActivation r feat)
        (if p.Scale ≤ 0 then 1 else p.Scale) (coordCache r.width) (coordCache r.height))
      0 (List.map Nat.succ (List.range (r.height.toNat - 1)))
      (renderRow_none r p feat _ _ _ _ _ 0 hp hw)]
  rfl


lemma Palette_ne_nil (name : String) : Palette name ≠ [] := by
  unfold Palette
  split <;> decide

lemma Configure_width (r : Renderer) (pn pt cm : String) (ca : Bool) :
    (Configure r pn pt cm ca).width = r.width := by
  simp only [Configure]
  split <;> rfl

lemma Configure_height (r : Renderer) (pn pt cm : String) (ca : Bool) :
    (Configure r pn pt cm ca).height = r.height := by
  simp only [Configure]
  split <;> rfl

lemma Configure_palette (r : Renderer) (pn pt cm : String) (ca : Bool) :
    (Configure r pn pt cm ca).palette = Palette (if pn = "" then "default" else pn) := by
  simp only [Configure]
  split <;> rfl

lemma Resize_pos (r : Renderer) (w h : ℤ) (hw : 1 ≤ r.width) (hh : 1 ≤ r.height) :
    1 ≤ (Resize r w h).width ∧ 1 ≤ (Resize r w h).height := by
  simp only [Resize]
  constructor <;> split_ifs <;> omega

lemma applyResizes_inv (l : List (ℤ × ℤ)) :
    ∀ r : Renderer, 1 ≤ r.width → 1 ≤ r.height →
      1 ≤ (applyResizes r l).width ∧ 1 ≤ (applyResizes r l).height
        ∧ (applyResizes r l).palette = r.palette
        ∧ (applyResizes r l).pattern = r.pattern := by
  induction l with
  | nil => intro r hw hh; exact ⟨hw, hh, rfl, rfl⟩
  | cons x rest ih =>
    intro r hw hh
    have hstep := Resize_pos r x.1 x.2 hw hh
    have := ih (Resize r x.1 x.2) hstep.1 hstep.2
    simpa [applyResizes] using this

end render

open render

/-- The zero-valued 1x1 ASCII renderer used as the receiver of the
configuration calls in the C1 and C7 evidence. -/
noncomputable def base11 : Renderer :=
  { width := 1, height := 1, palette := [], paletteName := "", pattern := none,
    patternName := "", detailMix := 0, colorMode := ColorMode.chromatic,
    quality := Quality.balanced, colorOnAudio := false, useANSI := false }

/-- A renderer configured with the unknown pattern name "waves" (a name the
CLI of this repository even advertises): the fallback leaves a nil pattern
function. -/
noncomputable def rWaves : Renderer := Configure base11 "default" "waves" "chromatic" false

/-- C1 (code_bug).  Configuring with an unknown pattern name takes the
fallback branch, which reads the nonexistent registry key "plasma": the
renderer reports `patternName = "plasma"` but its pattern function is nil
(`none`), and the next `Render` call dereferences it and panics (`none`)
instead of succeeding.  Palette and color-mode fallbacks do work: the
unknown-palette default glyph set and the chromatic color mode are
selected. -/
theorem C1_configure_fallback_bug :
    rWaves.patternName = "plasma"
    ∧ rWaves.pattern = none
    ∧ rWaves.palette = defaultPalette
    ∧ rWaves.colorMode = ColorMode.chromatic
    ∧ Render rWaves Defaults featuresZero 0 = none := by
  refine ⟨by decide, by decide, by decide, by decide, ?_⟩
  exact render_none rWaves Defaults featuresZero 0 (by decide) (by decide) (by decide)

/-- C7 (corrected).  For a renderer whose pattern function is set and whose
palette is nonempty (as `Configure` guarantees for every registered pattern
name), `Render` on a `W x H` configuration with `W, H ≥ 1` produces exactly
`H` lines of exactly `W` glyph runes each (plus optional ANSI escapes); and
any renderer with `W ≤ 0` or `H ≤ 0` yields the empty frame, without
raising an error.  The pattern hypothesis is forced by
`C7_counterexample`: the missing "plasma" registry entry lets `Configure`
install a nil pattern function, and `Render` then panics instead of
producing lines. -/
theorem C7_render_shape (r : Renderer) (p : Parameters) (feat : Features) (fps : ℝ) :
    (r.pattern.isSome → r.palette ≠ [] → 1 ≤ r.width → 1 ≤ r.height →
      ∃ fr, Render r p feat fps = some fr ∧ fr.lines.length = r.height.toNat
        ∧ ∀ l ∈ fr.lines, glyphCount l = r.width.toNat)
    ∧ (r.width ≤ 0 ∨ r.height ≤ 0 → Render r p feat fps = some ⟨[]⟩) := by
  constructor
  · intro hp hpal hw hh
    exact render_shape r p feat fps hp hpal hw hh
  · intro hg
    simp only [Render]
    rw [if_pos hg]

/-- The renderer obtained by configuring the advertised default pattern
name "plasma" itself on a 1x1 surface. -/
noncomputable def rPlasma : Renderer := Configure base11 "default" "plasma" "chromatic" false

/-- C7 counterexample: `rPlasma` has configured dimensions `1 x 1`, so the
claim requires `Render` to return a frame with exactly one line, but the
nil pattern function installed by the broken fallback makes `Render`
panic (`none`). -/
theorem C7_counterexample :
    rPlasma.width = 1 ∧ rPlasma.height = 1
    ∧ Render rPlasma Defaults featuresZero 0 = none := by
  refine ⟨by decide, by decide, ?_⟩
  exact render_none rPlasma Defaults featuresZero 0 (by decide) (by decide) (by decide)

/-- A well-configured 2x1 renderer built by `New` with the registered
pattern name "flash". -/
noncomputable def rNew : Renderer :=
  Configure
    (SetQuality
      { width := 2, height := 1, palette := [], paletteName := "",
        pattern := none, patternName := "", detailMix := 0,
        colorMode := ColorMode.chromatic, quality := Quality.balanced,
        colorOnAudio := false, useANSI := false }
      "high")
    "default" "flash" "chromatic" false

/-- C7 witness: the amended shape statement applied to the concrete
well-configured renderer `rNew` (2 columns, 1 row). -/
theorem C7_witness :
    rNew.pattern.isSome = true ∧
    ∃ fr, Render rNew Defaults featuresZero 0 = some fr
      ∧ fr.lines.length = rNew.height.toNat
      ∧ ∀ l ∈ fr.lines, glyphCount l = rNew.width.toNat :=
  ⟨by decide,
   (C7_render_shape rNew Defaults featuresZero 0).1 (by decide) (by decide)
     (by decide) (by decide)⟩

/-- C10 (confirmed).  `New` rejects nonpositive dimensions with an error;
any renderer it returns keeps `width ≥ 1` and `height ≥ 1` across every
sequence of `Resize` calls (nonpositive resize arguments are ignored), so
the empty-frame guard of `Render` is never taken for a renderer obtained
from `New`: its result is never the empty frame. -/
theorem C10_new_resize_invariant :
    (∀ (w h : ℤ) (pn pt cm qn : String) (ca ua : Bool),
      w ≤ 0 ∨ h ≤ 0 → New w h pn pt cm qn ca ua = none)
    ∧ ∀ (w h : ℤ) (pn pt cm qn : String) (ca ua : Bool) (r : Renderer),
        New w h pn pt cm qn ca ua = some r →
        ∀ (resizes : List (ℤ × ℤ)) (p : Parameters) (feat : Features) (fps : ℝ),
          1 ≤ (applyResizes r resizes).width
          ∧ 1 ≤ (applyResizes r resizes).height
          ∧ ¬((applyResizes r resizes).width ≤ 0 ∨ (applyResizes r resizes).height ≤ 0)
          ∧ Render (applyResizes r resizes) p feat fps ≠ some ⟨[]⟩ := by
  constructor
  · intro w h pn pt cm qn ca ua hg
    simp only [render.New]
    rw [if_pos hg]
  · intro w h pn pt cm qn ca ua r hr resizes p feat fps
    have hwh : ¬(w ≤ 0 ∨ h ≤ 0) := by
      intro hg
      simp only [render.New] at hr
      rw [if_pos hg] at hr
      exact Option.noConfusion hr
    have hrEq : r = Configure
        (SetQuality
          { width := w, height := h, palette := [], paletteName := "",
            pattern := none, patternName := "", detailMix := 0,
            colorMode := ColorMode.chromatic, quality := Quality.balanced,
            colorOnAudio := false, useANSI := ua }
          qn)
        pn pt cm ca := by
      simp only [render.New] at hr
      rw [if_neg hwh] at hr
      exact (Option.some.inj hr).symm
    have hwr : r.width = w := by rw [hrEq, Configure_width]; rfl
    have hhr : r.height = h := by rw [hrEq, Configure_height]; rfl
    have hpal : r.palette ≠ [] := by
      rw [hrEq, Configure_palette]
      exact Palette_ne_nil _
    have hw1 : 1 ≤ r.width := by omega
    have hh1 : 1 ≤ r.height := by omega
    obtain ⟨hw2, hh2, hpal2, hpat2⟩ := applyResizes_inv resizes r hw1 hh1
    refine ⟨hw2, hh2, by omega, ?_⟩
    cases hpat : (applyResizes r resizes).pattern with
    | some k =>
      obtain ⟨fr, hfr, hlen, _⟩ := render_shape (applyResizes r resizes) p feat fps
        (by rw [hpat]; rfl) (by rw [hpal2]; exact hpal) hw2 hh2
      rw [hfr]
      intro heq
      have : fr.lines.length = 0 := by
        have := Option.some.inj heq
        rw [this]
        rfl
      omega
    | none =>
      rw [render_none (applyResizes r resizes) p feat fps hpat hw2 hh2]
      exact Option.noConfusion

/-- C10 witness: `New` on a 2x1 surface with registered names returns the
renderer `rNew`; after a `Resize (0, -3)` call (both arguments ignored) the
invariant and the nonempty render result hold. -/
theorem C10_witness :
    New 2 1 "default" "flash" "chromatic" "high" false false = some rNew
    ∧ (1 ≤ (applyResizes rNew [(0, -3)]).width
      ∧ 1 ≤ (applyResizes rNew [(0, -3)]).height
      ∧ ¬((applyResizes rNew [(0, -3)]).width ≤ 0 ∨ (applyResizes rNew [(0, -3)]).height ≤ 0)
      ∧ Render (applyResizes rNew [(0, -3)]) Defaults featuresZero 0 ≠ some ⟨[]⟩) :=
  ⟨rfl,
   C10_new_resize_invariant.2 2 1 "default" "flash" "chromatic" "high" false false rNew rfl
     [(0, -3)] Defaults featuresZero 0⟩

end Golizer
